import Mathlib

/-!
Shallow embedding of the team-chat server's membership and messaging core.

Each definition below transcribes one TypeScript handler of the repository
(src/server/src/handlers and the drizzle schema in src/server/src/db/schema):
the relational store becomes a record of row lists, SQL `select ... where`
becomes `List.filter`, `insert` appends to the list (insertion order is the
ordering proxy the spec accepts for unordered SQL results), `update ... where`
maps over the list, and `delete ... where` filters it out.  Serial primary
keys become explicit per-table counters, timestamps become `Nat` clock values
passed in by the caller (`new Date()` at call time), and a thrown `Error`
becomes `Except` with one constructor per throw site, named after the error
taxonomy of the specification.  JavaScript truthiness on nullable/optional
numeric ids (`if (input.channel_id)`) is modelled by `truthyVal`, which treats
`none` (null/undefined) and `some 0` as falsy exactly as JS does.
-/

namespace TeamChat

/-- `role ∈ {owner, admin, member}` of channel_memberships (memberRoleEnum). -/
inductive Role where
  | owner
  | admin
  | member
deriving DecidableEq, Repr

/-- `status` of users (userStatusEnum). -/
inductive UserStatus where
  | online
  | away
  | busy
  | offline
deriving DecidableEq, Repr

/-- `message_type` of messages (messageTypeEnum). -/
inductive MessageType where
  | text
  | file
  | system
deriving DecidableEq, Repr

/-- A row of usersTable. -/
structure User where
  id : Nat
  username : String
  email : String
  password_hash : String
  display_name : Option String
  avatar_url : Option String
  status : UserStatus
  created_at : Nat
  updated_at : Nat
deriving DecidableEq, Repr

/-- A row of channelsTable. -/
structure Channel where
  id : Nat
  name : String
  description : Option String
  is_private : Bool
  created_by : Nat
  created_at : Nat
  updated_at : Nat
deriving DecidableEq, Repr

/-- A row of channelMembershipsTable. -/
structure Membership where
  id : Nat
  channel_id : Nat
  user_id : Nat
  role : Role
  joined_at : Nat
deriving DecidableEq, Repr

/-- A row of messagesTable; `channel_id` and `direct_message_recipient_id`
are nullable columns, `none` standing for SQL NULL. -/
structure Message where
  id : Nat
  content : String
  message_type : MessageType
  sender_id : Nat
  channel_id : Option Nat
  direct_message_recipient_id : Option Nat
  reply_to_message_id : Option Nat
  edited_at : Option Nat
  created_at : Nat
  updated_at : Nat
deriving DecidableEq, Repr

/-- A row of directMessageConversationsTable. -/
structure Conversation where
  id : Nat
  user1_id : Nat
  user2_id : Nat
  created_at : Nat
  updated_at : Nat
deriving DecidableEq, Repr

/-- The relational store: one list of rows per table (in insertion order,
the ordering proxy for SQL result sets) plus the serial counters that
produce fresh primary keys.  File attachments play no part in the claims
below and are omitted. -/
structure Store where
  users : List User
  channels : List Channel
  memberships : List Membership
  messages : List Message
  conversations : List Conversation
  nextChannelId : Nat
  nextMembershipId : Nat
  nextMessageId : Nat
  nextConversationId : Nat
deriving DecidableEq, Repr

/-- JavaScript truthiness of a nullable/optional numeric field:
null, undefined and 0 are falsy; a nonzero number is kept. -/
def truthyVal : Option Nat → Option Nat
  | none => none
  | some n => if n = 0 then none else some n

/-- Input of createChannelInputSchema (the creator id travels separately). -/
structure CreateChannelInput where
  name : String
  description : Option String
  is_private : Bool
deriving DecidableEq, Repr

/-- Error of the createChannel handler (`User with id ... does not exist`). -/
inductive CreateChannelErr where
  | CreatorNotFound
deriving DecidableEq, Repr

/-- Embeds handlers/create_channel.ts: verify the creator exists, insert the
channel row, then insert an owner membership for the creator.
`input.description || null` maps an empty string to NULL (JS truthiness). -/
def createChannel (s : Store) (input : CreateChannelInput) (creatorId : Nat)
    (now : Nat) : Except CreateChannelErr (Channel × Store) :=
  if (s.users.filter (fun u => u.id = creatorId)).isEmpty then
    .error .CreatorNotFound
  else
    let channel : Channel :=
      { id := s.nextChannelId
        name := input.name
        description :=
          match input.description with
          | some d => if d = "" then none else some d
          | none => none
        is_private := input.is_private
        created_by := creatorId
        created_at := now
        updated_at := now }
    let membership : Membership :=
      { id := s.nextMembershipId
        channel_id := channel.id
        user_id := creatorId
        role := .owner
        joined_at := now }
    .ok (channel,
      { s with
        channels := s.channels ++ [channel]
        memberships := s.memberships ++ [membership]
        nextChannelId := s.nextChannelId + 1
        nextMembershipId := s.nextMembershipId + 1 })

/-- Input of channelMembershipInputSchema (join/leave). -/
structure MembershipInput where
  channel_id : Nat
  user_id : Nat
  role : Option Role
deriving DecidableEq, Repr

/-- Errors of the joinChannel handler, one per throw site. -/
inductive JoinChannelErr where
  | ChannelNotFound
  | UserNotFound
  | AlreadyMember
deriving DecidableEq, Repr

/-- Embeds the joinChannel handler (src/unnamed/part_013): channel must
exist, user must exist, the (channel,user) pair must not already be a
member; the inserted role is `input.role || 'member'`. -/
def joinChannel (s : Store) (input : MembershipInput) (now : Nat) :
    Except JoinChannelErr (Membership × Store) :=
  if (s.channels.filter (fun c => c.id = input.channel_id)).isEmpty then
    .error .ChannelNotFound
  else if (s.users.filter (fun u => u.id = input.user_id)).isEmpty then
    .error .UserNotFound
  else if !(s.memberships.filter (fun m =>
      m.channel_id = input.channel_id ∧ m.user_id = input.user_id)).isEmpty then
    .error .AlreadyMember
  else
    let membership : Membership :=
      { id := s.nextMembershipId
        channel_id := input.channel_id
        user_id := input.user_id
        role := input.role.getD .member
        joined_at := now }
    .ok (membership,
      { s with
        memberships := s.memberships ++ [membership]
        nextMembershipId := s.nextMembershipId + 1 })

/-- Error of the leaveChannel handler (`User is not a member of this channel`). -/
inductive LeaveChannelErr where
  | NotAMember
deriving DecidableEq, Repr

/-- Deleting a channel row cascades (onDelete: 'cascade' in db/schema) to its
membership rows and its channel messages. -/
def deleteChannelCascade (s : Store) (channelId : Nat) : Store :=
  { s with
    channels := s.channels.filter (fun c => ¬ c.id = channelId)
    memberships := s.memberships.filter (fun m => ¬ m.channel_id = channelId)
    messages := s.messages.filter (fun m => ¬ m.channel_id = some channelId) }

/-- `delete from channel_memberships where channel_id = c and user_id = u`. -/
def removeMembershipRows (s : Store) (channelId userId : Nat) : Store :=
  { s with
    memberships := s.memberships.filter (fun m =>
      ¬ (m.channel_id = channelId ∧ m.user_id = userId)) }

/-- Embeds handlers/leave_channel.ts (leaveChannel in src/server/src/schema.ts
lines 208-277): look up the caller's membership; a non-owner is simply
deleted; a departing owner first transfers ownership to the first admin among
the other members of the channel, else to the first other member, by an
`update ... set role = 'owner' where id = newOwner.id`; an owner with no
other members deletes the channel itself and returns early. -/
def leaveChannel (s : Store) (input : MembershipInput) :
    Except LeaveChannelErr (Bool × Store) :=
  match s.memberships.filter (fun m =>
      m.channel_id = input.channel_id ∧ m.user_id = input.user_id) with
  | [] => .error .NotAMember
  | membership :: _ =>
    if membership.role = Role.owner then
      let otherMembers := s.memberships.filter (fun m =>
        m.channel_id = input.channel_id)
      let remainingMembers := otherMembers.filter (fun m =>
        ¬ m.user_id = input.user_id)
      match remainingMembers with
      | [] => .ok (true, deleteChannelCascade s input.channel_id)
      | r :: _ =>
        let adminMembers := remainingMembers.filter (fun m => m.role = Role.admin)
        let newOwner := adminMembers.headD r
        let s1 : Store :=
          { s with
            memberships := s.memberships.map (fun m =>
              if m.id = newOwner.id then { m with role := Role.owner } else m) }
        .ok (true, removeMembershipRows s1 input.channel_id input.user_id)
    else
      .ok (true, removeMembershipRows s input.channel_id input.user_id)

/-- Error of the getChannelMembers handler (`Channel with id ... not found`). -/
inductive GetChannelMembersErr where
  | ChannelNotFound
deriving DecidableEq, Repr

/-- Embeds handlers/get_channel_members.ts: the channel must exist, then all
membership rows of the channel are returned. -/
def getChannelMembers (s : Store) (channelId : Nat) :
    Except GetChannelMembersErr (List Membership) :=
  if (s.channels.filter (fun c => c.id = channelId)).isEmpty then
    .error .ChannelNotFound
  else
    .ok (s.memberships.filter (fun m => m.channel_id = channelId))

/-- Input of createMessageInputSchema.  The three id fields are
`number | null | undefined` on the wire; the handler only ever tests their
JS truthiness, so null and undefined are merged into `none` here. -/
structure CreateMessageInput where
  content : String
  message_type : MessageType
  channel_id : Option Nat := none
  direct_message_recipient_id : Option Nat := none
  reply_to_message_id : Option Nat := none
deriving DecidableEq, Repr

/-- Errors of the createMessage handler, one per throw site, in source order. -/
inductive CreateMessageErr where
  | SenderNotFound
  | MissingDestination
  | AmbiguousDestination
  | ChannelNotFound
  | NotChannelMember
  | RecipientNotFound
  | SelfMessage
  | ReplyTargetNotFound
  | ReplyChannelMismatch
  | ReplyConversationMismatch
deriving DecidableEq, Repr

/-- Embeds the createMessage handler (src/unnamed/part_011): sender lookup,
destination truthiness checks, channel existence + sender membership for a
channel destination, recipient existence + self check for a DM destination,
then reply-target consistency, then the insert (edited_at defaults to NULL). -/
def createMessage (s : Store) (input : CreateMessageInput)
    (senderId : Nat) (now : Nat) : Except CreateMessageErr (Message × Store) :=
  if (s.users.filter (fun u => u.id = senderId)).isEmpty then
    .error .SenderNotFound
  else if truthyVal input.channel_id = none ∧
      truthyVal input.direct_message_recipient_id = none then
    .error .MissingDestination
  else if ¬ truthyVal input.channel_id = none ∧
      ¬ truthyVal input.direct_message_recipient_id = none then
    .error .AmbiguousDestination
  else
    let channelCheck : Option CreateMessageErr :=
      match truthyVal input.channel_id with
      | some cid =>
        if (s.channels.filter (fun c => c.id = cid)).isEmpty then
          some .ChannelNotFound
        else if (s.memberships.filter (fun m =>
            m.channel_id = cid ∧ m.user_id = senderId)).isEmpty then
          some .NotChannelMember
        else none
      | none => none
    let dmCheck : Option CreateMessageErr :=
      match truthyVal input.direct_message_recipient_id with
      | some rid =>
        if (s.users.filter (fun u => u.id = rid)).isEmpty then
          some .RecipientNotFound
        else if rid = senderId then
          some .SelfMessage
        else none
      | none => none
    let replyCheck : Option CreateMessageErr :=
      match truthyVal input.reply_to_message_id with
      | some qid =>
        match s.messages.filter (fun m => m.id = qid) with
        | [] => some .ReplyTargetNotFound
        | original :: _ =>
          match truthyVal input.channel_id with
          | some cid =>
            if ¬ original.channel_id = some cid then
              some .ReplyChannelMismatch
            else none
          | none =>
            match truthyVal input.direct_message_recipient_id with
            | some rid =>
              if (original.sender_id = senderId ∧
                  original.direct_message_recipient_id = some rid) ∨
                 (original.sender_id = rid ∧
                  original.direct_message_recipient_id = some senderId) then
                none
              else
                some .ReplyConversationMismatch
            | none => none
      | none => none
    match channelCheck with
    | some e => .error e
    | none =>
      match dmCheck with
      | some e => .error e
      | none =>
        match replyCheck with
        | some e => .error e
        | none =>
          let msg : Message :=
            { id := s.nextMessageId
              content := input.content
              message_type := input.message_type
              sender_id := senderId
              channel_id := truthyVal input.channel_id
              direct_message_recipient_id :=
                truthyVal input.direct_message_recipient_id
              reply_to_message_id := truthyVal input.reply_to_message_id
              edited_at := none
              created_at := now
              updated_at := now }
          .ok (msg,
            { s with
              messages := s.messages ++ [msg]
              nextMessageId := s.nextMessageId + 1 })

/-- Errors of the deleteMessage handler. -/
inductive DeleteMessageErr where
  | MessageNotFound
  | Unauthorized
deriving DecidableEq, Repr

/-- Embeds handlers/delete_message.ts: the message must exist; permission is
being the sender, or — for a channel message — holding an owner or admin
membership in that channel (`membershipResult[0]`); a DM recipient or any
other user is refused.  The returned boolean is `rowCount > 0` of the delete. -/
def deleteMessage (s : Store) (messageId userId : Nat) :
    Except DeleteMessageErr (Bool × Store) :=
  match s.messages.filter (fun m => m.id = messageId) with
  | [] => .error .MessageNotFound
  | message :: _ =>
    let isOriginalSender := message.sender_id = userId
    let hasPermission :=
      if ¬ isOriginalSender then
        match truthyVal message.channel_id with
        | some cid =>
          match s.memberships.filter (fun mb =>
              mb.channel_id = cid ∧ mb.user_id = userId) with
          | [] => false
          | membership :: _ =>
            membership.role = Role.owner ∨ membership.role = Role.admin
        | none => false
      else
        true
    if ¬ hasPermission then
      .error .Unauthorized
    else
      let deleted := s.messages.filter (fun m => m.id = messageId)
      .ok (decide (0 < deleted.length),
        { s with messages := s.messages.filter (fun m => ¬ m.id = messageId) })

/-- Input of updateMessageInputSchema. -/
structure UpdateMessageInput where
  id : Nat
  content : String
deriving DecidableEq, Repr

/-- Errors the updateMessage contract names (the placeholder throws none). -/
inductive UpdateMessageErr where
  | MessageNotFound
deriving DecidableEq, Repr

/-- Embeds handlers/update_message.ts AS IT IS IN THE SOURCE: a placeholder
that ignores the store entirely and resolves with a fabricated message
(sender_id 1, type text, null destinations) without persisting anything and
without ever failing MessageNotFound. -/
def updateMessage (s : Store) (input : UpdateMessageInput) (now : Nat) :
    Except UpdateMessageErr (Message × Store) :=
  .ok (
    { id := input.id
      content := input.content
      message_type := .text
      sender_id := 1
      channel_id := none
      direct_message_recipient_id := none
      reply_to_message_id := none
      edited_at := some now
      created_at := now
      updated_at := now },
    s)

/-- Input of loginUserInputSchema. -/
structure LoginUserInput where
  email : String
  password : String
deriving DecidableEq, Repr

/-- Error of the loginUser handler (`Invalid email or password`, thrown at
both failure sites). -/
inductive LoginUserErr where
  | InvalidCredentials
deriving DecidableEq, Repr

/-- Embeds the loginUser handler (src/unnamed/part_010): find the first user
by email (limit 1); unknown email throws InvalidCredentials; the stored
password_hash is never consulted — the code only rejects an empty password
(JS `!input.password`), then sets status online and refreshes updated_at,
returning the first updated row (`updatedUsers[0]`). -/
def loginUser (s : Store) (input : LoginUserInput) (now : Nat) :
    Except LoginUserErr (User × Store) :=
  match s.users.filter (fun u => u.email = input.email) with
  | [] => .error .InvalidCredentials
  | user :: _ =>
    if input.password = "" then
      .error .InvalidCredentials
    else
      let updatedUsers := s.users.map (fun u =>
        if u.id = user.id then
          { u with status := UserStatus.online, updated_at := now }
        else u)
      let s1 : Store := { s with users := updatedUsers }
      .ok ((updatedUsers.filter (fun u => u.id = user.id)).headD
            { user with status := UserStatus.online, updated_at := now },
        s1)

/-- Input of createDirectMessageConversationInputSchema. -/
structure CreateConversationInput where
  user1_id : Nat
  user2_id : Nat
deriving DecidableEq, Repr

/-- Error of the createDirectMessageConversation handler
(`One or both users do not exist`). -/
inductive CreateConversationErr where
  | UsersNotFound
deriving DecidableEq, Repr

/-- Embeds handlers/create_direct_message_conversation.ts: both users must
exist (one row suffices when user1_id = user2_id); an existing conversation
matching the pair in either order is returned unchanged; otherwise a new row
is inserted preserving the caller-supplied order. -/
def createDirectMessageConversation (s : Store)
    (input : CreateConversationInput) (now : Nat) :
    Except CreateConversationErr (Conversation × Store) :=
  let users := s.users.filter (fun u =>
    u.id = input.user1_id ∨ u.id = input.user2_id)
  let expectedUserCount := if input.user1_id = input.user2_id then 1 else 2
  if ¬ users.length = expectedUserCount then
    .error .UsersNotFound
  else
    match s.conversations.filter (fun c =>
        (c.user1_id = input.user1_id ∧ c.user2_id = input.user2_id) ∨
        (c.user1_id = input.user2_id ∧ c.user2_id = input.user1_id)) with
    | conv :: _ => .ok (conv, s)
    | [] =>
      let conv : Conversation :=
        { id := s.nextConversationId
          user1_id := input.user1_id
          user2_id := input.user2_id
          created_at := now
          updated_at := now }
      .ok (conv,
        { s with
          conversations := s.conversations ++ [conv]
          nextConversationId := s.nextConversationId + 1 })

/-- Whitespace as String.prototype.trim removes it (ASCII portion). -/
def isJsSpace (c : Char) : Bool :=
  c = ' ' ∨ c = '\t' ∨ c = '\n' ∨ c = '\r'

/-- Models JavaScript `searchQuery.trim()`: strip leading and trailing
whitespace. -/
def jsTrim (q : String) : String :=
  ⟨((q.data.dropWhile isJsSpace).reverse.dropWhile isJsSpace).reverse⟩

/-- `pat` occurs as a contiguous sublist of `hay`. -/
def containsSub (hay pat : List Char) : Bool :=
  match hay with
  | [] => pat.isEmpty
  | _ :: t => pat.isPrefixOf hay || containsSub t pat

/-- Models SQL `content ILIKE '%pat%'` as produced by the search handler:
case-insensitive (ASCII folding) substring containment. -/
def icontains (hay pat : String) : Bool :=
  containsSub (hay.data.map Char.toLower) (pat.data.map Char.toLower)

/-- Stable ascending insertion by created_at: the new element lands after
every already-placed element that is not strictly newer. -/
def insertAsc (x : Message) : List Message → List Message
  | [] => [x]
  | y :: ys =>
    if y.created_at ≤ x.created_at then y :: insertAsc x ys else x :: y :: ys

/-- Stable sort by created_at ascending: models `order by created_at` with
insertion order breaking ties, and the stable JS `Array.prototype.sort`. -/
def sortAsc (l : List Message) : List Message :=
  l.foldl (fun acc x => insertAsc x acc) []

/-- Stable descending insertion by created_at. -/
def insertDesc (x : Message) : List Message → List Message
  | [] => [x]
  | y :: ys =>
    if x.created_at ≤ y.created_at then y :: insertDesc x ys else x :: y :: ys

/-- Stable sort by created_at descending: models `order by created_at desc`
with insertion order breaking ties. -/
def sortDesc (l : List Message) : List Message :=
  l.foldl (fun acc x => insertDesc x acc) []

/-- Embeds the searchMessages handler (src/unnamed/part_013).  A blank query
returns nothing.  With a channel id: a missing membership returns [] softly,
otherwise the 50 oldest content matches of that channel.  Without one: the 25
oldest matches from the caller's channels and the 25 oldest matching DMs the
caller sent or received are combined, re-sorted ascending and capped at 50.
The ILIKE pattern is built from the trimmed query. -/
def searchMessages (s : Store) (searchQuery : String) (userId : Nat)
    (channelId : Option Nat) : List Message :=
  if jsTrim searchQuery = "" then
    []
  else
    match channelId with
    | some cid =>
      if (s.memberships.filter (fun m =>
          m.channel_id = cid ∧ m.user_id = userId)).isEmpty then
        []
      else
        (sortAsc (s.messages.filter (fun m =>
          icontains m.content (jsTrim searchQuery) ∧
          m.channel_id = some cid))).take 50
    | none =>
      let channelIds := (s.memberships.filter (fun m =>
        m.user_id = userId)).map (fun m => m.channel_id)
      let channelMessages :=
        if 0 < channelIds.length then
          (sortAsc (s.messages.filter (fun m =>
            icontains m.content (jsTrim searchQuery) &&
            match m.channel_id with
            | some c => decide (c ∈ channelIds)
            | none => false))).take 25
        else []
      let directMessages :=
        (sortAsc (s.messages.filter (fun m =>
          icontains m.content (jsTrim searchQuery) ∧
          m.channel_id = none ∧
          (m.sender_id = userId ∨
            m.direct_message_recipient_id = some userId)))).take 25
      (sortAsc (channelMessages ++ directMessages)).take 50

/-- Input of getMessagesInputSchema.  Here null and undefined must be told
apart (the handler tests `!== undefined` and `=== null`), so the two id
fields are doubly optional: `none` = undefined, `some none` = null. -/
structure GetMessagesInput where
  channel_id : Option (Option Nat) := none
  direct_message_recipient_id : Option (Option Nat) := none
  page : Option Nat := none
  limit : Option Nat := none
deriving DecidableEq, Repr

/-- Error of the getMessages handler
(`Cannot specify both channel_id and direct_message_recipient_id`). -/
inductive GetMessagesErr where
  | AmbiguousDestination
deriving DecidableEq, Repr

/-- Embeds the getMessages handler (src/unnamed/part_010): defaults page 1 /
limit 50 by JS truthiness, rejects both ids being defined, pushes an equality
or IS NULL condition per defined id, and pages the matches newest first.
There is no acting-user parameter and no membership check of any kind. -/
def getMessages (s : Store) (input : GetMessagesInput) :
    Except GetMessagesErr (List Message) :=
  let page := if input.page.getD 0 = 0 then 1 else input.page.getD 0
  let limit := if input.limit.getD 0 = 0 then 50 else input.limit.getD 0
  let offset := (page - 1) * limit
  if ¬ input.channel_id = none ∧
      ¬ input.direct_message_recipient_id = none then
    .error .AmbiguousDestination
  else
    let chanCond : Message → Bool :=
      match input.channel_id with
      | none => fun _ => true
      | some none => fun m => m.channel_id = none
      | some (some cid) => fun m => m.channel_id = some cid
    let dmCond : Message → Bool :=
      match input.direct_message_recipient_id with
      | none => fun _ => true
      | some none => fun m => m.direct_message_recipient_id = none
      | some (some rid) => fun m => m.direct_message_recipient_id = some rid
    .ok (((sortDesc (s.messages.filter (fun m =>
      chanCond m && dmCond m))).drop offset).take limit)

/-! ## Specification-side definitions

The two definitions below are written from the specification's words, not
from the handler code, to be compared with the transcribed handlers in the
refinement theorems for claims C4 and C9. -/

/-- Written from the spec's words for createMessage (§4.5): the validation
chain with *suppliedness* meaning the field is present (`isSome`), existence
meaning a row resolves, and the reply target being the first message that
resolves the id.  On success the message is inserted with `edited_at = null`. -/
def createMessageSpec (s : Store) (input : CreateMessageInput)
    (senderId : Nat) (now : Nat) : Except CreateMessageErr (Message × Store) :=
  if ¬ ∃ u ∈ s.users, u.id = senderId then
    .error .SenderNotFound
  else if input.channel_id = none ∧
      input.direct_message_recipient_id = none then
    .error .MissingDestination
  else if ¬ input.channel_id = none ∧
      ¬ input.direct_message_recipient_id = none then
    .error .AmbiguousDestination
  else
    let destinationErr : Option CreateMessageErr :=
      match input.channel_id with
      | some cid =>
        if ¬ ∃ c ∈ s.channels, c.id = cid then
          some .ChannelNotFound
        else if ¬ ∃ m ∈ s.memberships,
            m.channel_id = cid ∧ m.user_id = senderId then
          some .NotChannelMember
        else none
      | none =>
        match input.direct_message_recipient_id with
        | some rid =>
          if ¬ ∃ u ∈ s.users, u.id = rid then
            some .RecipientNotFound
          else if rid = senderId then
            some .SelfMessage
          else none
        | none => none
    let replyErr : Option CreateMessageErr :=
      match input.reply_to_message_id with
      | some qid =>
        match s.messages.find? (fun m => m.id = qid) with
        | none => some .ReplyTargetNotFound
        | some original =>
          match input.channel_id with
          | some cid =>
            if ¬ original.channel_id = some cid then
              some .ReplyChannelMismatch
            else none
          | none =>
            match input.direct_message_recipient_id with
            | some rid =>
              if (original.sender_id = senderId ∧
                  original.direct_message_recipient_id = some rid) ∨
                 (original.sender_id = rid ∧
                  original.direct_message_recipient_id = some senderId) then
                none
              else some .ReplyConversationMismatch
            | none => none
      | none => none
    match destinationErr with
    | some e => .error e
    | none =>
      match replyErr with
      | some e => .error e
      | none =>
        let msg : Message :=
          { id := s.nextMessageId
            content := input.content
            message_type := input.message_type
            sender_id := senderId
            channel_id := input.channel_id
            direct_message_recipient_id := input.direct_message_recipient_id
            reply_to_message_id := input.reply_to_message_id
            edited_at := none
            created_at := now
            updated_at := now }
        .ok (msg,
          { s with
            messages := s.messages ++ [msg]
            nextMessageId := s.nextMessageId + 1 })

/-- Written from the amended words of claim C9 for the no-channel search: the
oldest at most 25 matches from channels where the caller holds a membership,
together with the oldest at most 25 DM matches the caller sent or received,
combined, ordered by creation time ascending and capped at 50 total; a match
means the content contains the trimmed query case-insensitively. -/
def searchMessagesSpec (s : Store) (q : String) (uid : Nat) : List Message :=
  if jsTrim q = "" then
    []
  else
    (sortAsc
      ((sortAsc (s.messages.filter (fun m =>
        icontains m.content (jsTrim q) &&
        decide (∃ mb ∈ s.memberships,
          mb.user_id = uid ∧ some mb.channel_id = m.channel_id)))).take 25 ++
       (sortAsc (s.messages.filter (fun m =>
        icontains m.content (jsTrim q) &&
        decide (m.channel_id = none ∧
          (m.sender_id = uid ∨
            m.direct_message_recipient_id = some uid))))).take 25)).take 50

/-! ## The membership state machine (for claim C2) -/

/-- The store a fresh deployment starts from: an arbitrary population of
users and no channels, memberships, messages or conversations. -/
def initStore (users : List User) : Store :=
  { users := users
    channels := []
    memberships := []
    messages := []
    conversations := []
    nextChannelId := 1
    nextMembershipId := 1
    nextMessageId := 1
    nextConversationId := 1 }

/-- One invocation of a membership-lifecycle operation, carrying its inputs
and its wall-clock timestamp. -/
inductive Op where
  | create : CreateChannelInput → Nat → Nat → Op
  | join : MembershipInput → Nat → Op
  | leave : MembershipInput → Op

/-- The store after an operation: the new store on success; a thrown error
rolls the transaction back and leaves the store unchanged. -/
def applyOp (s : Store) : Op → Store
  | .create input creatorId now =>
    match createChannel s input creatorId now with
    | .ok (_, s') => s'
    | .error _ => s
  | .join input now =>
    match joinChannel s input now with
    | .ok (_, s') => s'
    | .error _ => s
  | .leave input =>
    match leaveChannel s input with
    | .ok (_, s') => s'
    | .error _ => s

/-- Stores reachable from some initial store by operations satisfying
`allowed`. -/
inductive Reach (allowed : Op → Prop) : Store → Prop where
  | init (users : List User) : Reach allowed (initStore users)
  | step {s : Store} (op : Op) :
      Reach allowed s → allowed op → Reach allowed (applyOp s op)

/-- A join request that explicitly asks for the owner role. -/
def joinsAsOwner : Op → Prop
  | .join input _ => input.role = some Role.owner
  | _ => False

/-- Number of membership rows of a channel holding role owner. -/
def ownerCount (s : Store) (channelId : Nat) : Nat :=
  s.memberships.countP (fun m =>
    decide (m.channel_id = channelId ∧ m.role = Role.owner))

/-- The store well-formedness the relational schema enforces (serial primary
keys, the AlreadyMember uniqueness of (channel,user), foreign keys with
cascade) together with the one-owner-per-channel property of claim C2. -/
structure StoreInv (s : Store) : Prop where
  memIdNodup : (s.memberships.map Membership.id).Nodup
  memPairNodup :
    (s.memberships.map (fun m => (m.channel_id, m.user_id))).Nodup
  memIdLt : ∀ m ∈ s.memberships, m.id < s.nextMembershipId
  chanIdNodup : (s.channels.map Channel.id).Nodup
  chanIdLt : ∀ c ∈ s.channels, c.id < s.nextChannelId
  memChan : ∀ m ∈ s.memberships, ∃ c ∈ s.channels, c.id = m.channel_id
  oneOwner : ∀ c ∈ s.channels, ownerCount s c.id = 1

/-! ## Concrete fixtures for witnesses and counterexamples -/

/-- A user row with the given id; username and email carry the id's decimal
digits so distinct ids give distinct emails. -/
def mkUser (i : Nat) : User :=
  { id := i
    username := toString i
    email := toString i
    password_hash := "stored-hash"
    display_name := none
    avatar_url := none
    status := .offline
    created_at := 0
    updated_at := 0 }

/-- A channel row with the given id, created by `creator`. -/
def mkChannel (i creator : Nat) : Channel :=
  { id := i
    name := "general"
    description := none
    is_private := false
    created_by := creator
    created_at := 0
    updated_at := 0 }

/-- A channel with an owner, an admin and a plain member (claim C1). -/
def succStore : Store :=
  { users := [mkUser 10, mkUser 20, mkUser 30]
    channels := [mkChannel 1 10]
    memberships :=
      [⟨1, 1, 10, .owner, 0⟩, ⟨2, 1, 20, .admin, 1⟩, ⟨3, 1, 30, .member, 2⟩]
    messages := []
    conversations := []
    nextChannelId := 2
    nextMembershipId := 4
    nextMessageId := 1
    nextConversationId := 1 }

/-- A channel whose sole membership is its owner (claim C3). -/
def soleOwnerStore : Store :=
  { users := [mkUser 10]
    channels := [mkChannel 1 10]
    memberships := [⟨1, 1, 10, .owner, 0⟩]
    messages := []
    conversations := []
    nextChannelId := 2
    nextMembershipId := 2
    nextMessageId := 1
    nextConversationId := 1 }

/-- Reachable by claim C2's literal operation set: create a channel as user
1, then join user 2 with the explicitly requested role owner. -/
def twoOwnerStore : Store :=
  applyOp (applyOp (initStore [mkUser 1, mkUser 2])
    (Op.create ⟨"general", none, false⟩ 1 0)) (Op.join ⟨1, 2, some Role.owner⟩ 1)

/-- Reachable with a plain (role-less) join of user 2. -/
def memberJoinStore : Store :=
  applyOp (applyOp (initStore [mkUser 1, mkUser 2])
    (Op.create ⟨"general", none, false⟩ 1 0)) (Op.join ⟨1, 2, none⟩ 1)

/-- A channel owned by user 2, with plain member user 3 who sent the one
message; user 1 is an outsider (claim C5). -/
def msgStore : Store :=
  { users := [mkUser 1, mkUser 2, mkUser 3]
    channels := [mkChannel 1 2]
    memberships := [⟨1, 1, 2, .owner, 0⟩, ⟨2, 1, 3, .member, 0⟩]
    messages := [⟨1, "hello", .text, 3, some 1, none, none, none, 5, 5⟩]
    conversations := []
    nextChannelId := 2
    nextMembershipId := 3
    nextMessageId := 2
    nextConversationId := 1 }

/-- The registered user the login tests use: the stored credential is the
hash string, not the password (claim C8). -/
def loginStore : Store :=
  { initStore [] with
    users := [{ mkUser 1 with
      email := "test@example.com"
      password_hash := "hashed_password_123" }] }

/-- A member of one channel holding 26 messages that all match the query
"x" — more than the per-category limit of 25 (claim C9). -/
def searchBigStore : Store :=
  { users := [mkUser 1]
    channels := [mkChannel 1 1]
    memberships := [⟨1, 1, 1, .owner, 0⟩]
    messages := (List.range 26).map (fun i =>
      { id := i + 1
        content := "x"
        message_type := .text
        sender_id := 1
        channel_id := some 1
        direct_message_recipient_id := none
        reply_to_message_id := none
        edited_at := none
        created_at := i
        updated_at := i })
    conversations := []
    nextChannelId := 2
    nextMembershipId := 2
    nextMessageId := 27
    nextConversationId := 1 }

/-- One matching channel message, one matching received DM and one
non-matching message (claims C9 and C10 witnesses). -/
def searchSmallStore : Store :=
  { users := [mkUser 1, mkUser 2]
    channels := [mkChannel 1 1]
    memberships := [⟨1, 1, 1, .owner, 0⟩]
    messages :=
      [⟨1, "alpha X beta", .text, 1, some 1, none, none, none, 3, 3⟩,
       ⟨2, "x marks", .text, 2, none, some 1, none, none, 1, 1⟩,
       ⟨3, "no match", .text, 1, some 1, none, none, none, 2, 2⟩]
    conversations := []
    nextChannelId := 2
    nextMembershipId := 2
    nextMessageId := 4
    nextConversationId := 1 }

/-- The store left behind by a createDirectMessageConversation call: the new
store on success, the unchanged store on a thrown error (rollback). -/
def applyConversationOp (s : Store) (input : CreateConversationInput)
    (now : Nat) : Store :=
  match createDirectMessageConversation s input now with
  | .ok (_, s') => s'
  | .error _ => s

/-- The conversation rows matching the unordered pair {a,b}. -/
def pairRows (s : Store) (a b : Nat) : List Conversation :=
  s.conversations.filter (fun c =>
    (c.user1_id = a ∧ c.user2_id = b) ∨ (c.user1_id = b ∧ c.user2_id = a))

/-! ## Generic list lemmas -/

theorem findFirst_eq {α : Type} (p : α → Bool) (l : List α) :
    l.find? p = (l.filter p).head? := by
  induction l with
  | nil => rfl
  | cons a t ih =>
    by_cases h : p a
    · simp [List.find?, List.filter, h]
    · simp only [List.find?, List.filter, h]
      simpa [h] using ih

theorem countP_split {α : Type} (p q : α → Bool) (l : List α) :
    l.countP p =
      l.countP (fun a => p a && q a) + l.countP (fun a => p a && !q a) := by
  induction l with
  | nil => rfl
  | cons a t ih =>
    simp only [List.countP_cons]
    by_cases hp : p a
    · by_cases hq : q a
      · simp [hp, hq, ih]; omega
      · simp [hp, hq, ih]; omega
    · simp [hp, ih]

theorem countP_key_one {α β : Type} [DecidableEq β] {f : α → β} {l : List α}
    {x : α} (hn : (l.map f).Nodup) (hx : x ∈ l) :
    l.countP (fun a => decide (f a = f x)) = 1 := by
  induction l with
  | nil => cases hx
  | cons a t ih =>
    simp only [List.map_cons, List.nodup_cons] at hn
    simp only [List.countP_cons]
    by_cases h : f a = f x
    · have ht : t.countP (fun a => decide (f a = f x)) = 0 := by
        rw [List.countP_eq_zero]
        intro b hb
        simp only [decide_eq_true_eq]
        intro hfb
        exact hn.1 (h ▸ hfb ▸ List.mem_map_of_mem f hb)
      simp [h, ht]
    · have hx' : x ∈ t := by
        rcases List.mem_cons.mp hx with rfl | hx'
        · exact absurd rfl h
        · exact hx'
      simp [h, ih hn.2 hx']

theorem two_le_countP {α : Type} {p : α → Bool} {l : List α} {a b : α}
    (ha : a ∈ l) (hb : b ∈ l) (hab : ¬ a = b)
    (hpa : p a) (hpb : p b) : 2 ≤ l.countP p := by
  induction l with
  | nil => cases ha
  | cons x t ih =>
    simp only [List.countP_cons]
    rcases List.mem_cons.mp ha with rfl | ha'
    · have hb' : b ∈ t := by
        rcases List.mem_cons.mp hb with rfl | hb'
        · exact absurd rfl hab
        · exact hb'
      have hpos : 0 < t.countP p := List.countP_pos_iff.mpr ⟨b, hb', hpb⟩
      rw [if_pos hpa]
      omega
    · rcases List.mem_cons.mp hb with rfl | hb'
      · have hpos : 0 < t.countP p := List.countP_pos_iff.mpr ⟨a, ha', hpa⟩
        rw [if_pos hpb]
        omega
      · have := ih ha' hb'
        by_cases hx : p x
        · rw [if_pos hx]; omega
        · rw [if_neg hx]; omega

theorem countP_one_all_eq {α : Type} {p : α → Bool} {l : List α} {x : α}
    (h1 : l.countP p = 1) (hx : x ∈ l) (hpx : p x) :
    ∀ y ∈ l, p y → y = x := by
  intro y hy hpy
  by_contra hne
  have := two_le_countP hy hx hne hpy hpx
  omega

theorem insertAsc_perm (x : Message) (l : List Message) :
    (insertAsc x l).Perm (x :: l) := by
  induction l with
  | nil => exact List.Perm.refl _
  | cons y t ih =>
    by_cases h : y.created_at ≤ x.created_at
    · simp only [insertAsc, if_pos h]
      exact (ih.cons y).trans (List.Perm.swap x y t)
    · simp only [insertAsc, if_neg h]
      exact List.Perm.refl _

theorem sortAsc_go_perm (l acc : List Message) :
    (l.foldl (fun a x => insertAsc x a) acc).Perm (acc ++ l) := by
  induction l generalizing acc with
  | nil => simp
  | cons x t ih =>
    simp only [List.foldl_cons]
    refine (ih (insertAsc x acc)).trans ?_
    have h1 : (insertAsc x acc ++ t).Perm ((x :: acc) ++ t) :=
      (insertAsc_perm x acc).append_right t
    refine h1.trans ?_
    exact List.perm_middle.symm

theorem sortAsc_perm (l : List Message) : (sortAsc l).Perm l := by
  simpa using sortAsc_go_perm l []

theorem sortAsc_length (l : List Message) : (sortAsc l).length = l.length :=
  (sortAsc_perm l).length_eq

/-! ## Claim C3 -/

/-- C3: when the departing user is the channel's owner and holds the only
remaining membership row of that channel, leaveChannel returns true and
deletes the channel itself (its membership rows removed by cascade), and a
subsequent getChannelMembers on that channel id fails with ChannelNotFound. -/
theorem leaveChannel_sole_owner_deletes_channel
    (s : Store) (c u : Nat) (m : Membership) (ch : Channel) (roleArg : Option Role)
    (hch : ch ∈ s.channels) (hchid : ch.id = c)
    (hm : m ∈ s.memberships) (hcm : m.channel_id = c) (hum : m.user_id = u)
    (hrole : m.role = Role.owner)
    (honly : ∀ x ∈ s.memberships, x.channel_id = c → x = m) :
    ∃ s', leaveChannel s ⟨c, u, roleArg⟩ = .ok (true, s') ∧
      (∀ ch' ∈ s'.channels, ¬ ch'.id = c) ∧
      (∀ x ∈ s'.memberships, ¬ x.channel_id = c) ∧
      getChannelMembers s' c = .error .ChannelNotFound := by
  have hmemf : ∀ y ∈ s.memberships.filter
      (fun x => decide (x.channel_id = c ∧ x.user_id = u)), y = m := by
    intro y hy
    have := List.mem_filter.mp hy
    exact honly y this.1 (of_decide_eq_true this.2).1
  have hmne : m ∈ s.memberships.filter
      (fun x => decide (x.channel_id = c ∧ x.user_id = u)) :=
    List.mem_filter.mpr ⟨hm, by simp [hcm, hum]⟩
  unfold leaveChannel
  cases hf : s.memberships.filter
      (fun x => decide (x.channel_id = c ∧ x.user_id = u)) with
  | nil => rw [hf] at hmne; cases hmne
  | cons hd tl =>
    have hhd : hd = m := hmemf hd (by rw [hf]; exact List.mem_cons_self hd tl)
    simp only [hhd, hrole, if_pos rfl]
    have hrem : (s.memberships.filter (fun x => decide (x.channel_id = c))).filter
        (fun x => decide (¬ x.user_id = u)) = [] := by
      rw [List.filter_eq_nil_iff]
      intro y hy
      have h1 := List.mem_filter.mp hy
      have h2 := honly y h1.1 (of_decide_eq_true h1.2)
      simp [h2, hum]
    simp only [hrem]
    refine ⟨deleteChannelCascade s c, rfl, ?_, ?_, ?_⟩
    · intro ch' hch'
      have := List.mem_filter.mp hch'
      simpa using this.2
    · intro x hx
      have := List.mem_filter.mp hx
      simpa using this.2
    · unfold getChannelMembers deleteChannelCascade
      have : (s.channels.filter (fun x => ¬ x.id = c)).filter
          (fun x => decide (x.id = c)) = [] := by
        rw [List.filter_eq_nil_iff]
        intro y hy
        have := List.mem_filter.mp hy
        simpa using this.2
      simp only [this]
      rfl

/-- Witness for C3 at a concrete store: a channel whose single membership is
its owner, user 10. -/
theorem leaveChannel_sole_owner_witness :
    (∀ x ∈ soleOwnerStore.memberships, x.channel_id = 1 →
      x = (⟨1, 1, 10, Role.owner, 0⟩ : Membership)) ∧
    ∃ s', leaveChannel soleOwnerStore ⟨1, 10, none⟩ = .ok (true, s') ∧
      (∀ ch' ∈ s'.channels, ¬ ch'.id = 1) ∧
      (∀ x ∈ s'.memberships, ¬ x.channel_id = 1) ∧
      getChannelMembers s' 1 = .error .ChannelNotFound :=
  ⟨by decide,
    leaveChannel_sole_owner_deletes_channel soleOwnerStore 1 10
      ⟨1, 1, 10, Role.owner, 0⟩ (mkChannel 1 10) none (by decide) (by decide)
      (by decide) (by decide) (by decide) (by decide) (by decide)⟩

/-! ## Claim C6 (code bug: updateMessage is an unimplemented placeholder) -/

/-- C6: the claim says updateMessage fails MessageNotFound for an absent id
and otherwise persists the new content, stamping edited_at and updated_at.
The handler in the source is a placeholder: on the empty store with id
999999 — the exact input its own test suite expects to be rejected with
"message with id 999999 not found" — it resolves successfully with a
fabricated message (sender_id 1, type text), and on every store it leaves
the store untouched and never returns MessageNotFound. -/
theorem updateMessage_placeholder_no_store_access :
    updateMessage (initStore []) ⟨999999, "This should fail"⟩ 7 =
      .ok ({ id := 999999, content := "This should fail",
             message_type := .text, sender_id := 1, channel_id := none,
             direct_message_recipient_id := none, reply_to_message_id := none,
             edited_at := some 7, created_at := 7, updated_at := 7 },
           initStore []) ∧
    ∀ (s : Store) (input : UpdateMessageInput) (now : Nat),
      ¬ updateMessage s input now = .error .MessageNotFound ∧
      ∃ msg, updateMessage s input now = .ok (msg, s) ∧
        msg.sender_id = 1 ∧ msg.created_at = now := by
  refine ⟨rfl, fun s input now => ⟨?_, ⟨_, rfl, rfl, rfl⟩⟩⟩
  simp [updateMessage]

/-! ## Claim C8 (code bug: loginUser never verifies the password hash) -/

/-- C8: the claim says loginUser succeeds only when the password matches the
stored hash.  The handler never consults password_hash: with the registered
test credential (hash "hashed_password_123") the wrong password
"wrongpassword" logs in, transitions status to online and refreshes
updated_at — and the very same success is produced whatever hash is stored,
so success is independent of the stored credential.  Unknown email and the
one password check the code does have (empty password) both throw the single
InvalidCredentials error. -/
theorem loginUser_ignores_stored_hash :
    loginUser loginStore ⟨"test@example.com", "wrongpassword"⟩ 9 =
      .ok ({ mkUser 1 with
          email := "test@example.com"
          password_hash := "hashed_password_123"
          status := .online
          updated_at := 9 },
        { loginStore with users := [{ mkUser 1 with
            email := "test@example.com"
            password_hash := "hashed_password_123"
            status := .online
            updated_at := 9 }] }) ∧
    (∀ storedHash : String, ∃ u s',
      loginUser { loginStore with users := [{ mkUser 1 with
          email := "test@example.com"
          password_hash := storedHash }] }
        ⟨"test@example.com", "wrongpassword"⟩ 9 = .ok (u, s') ∧
      u.status = .online ∧ u.updated_at = 9 ∧
      u.password_hash = storedHash) ∧
    loginUser loginStore ⟨"unknown@example.com", "password123"⟩ 9 =
      .error .InvalidCredentials ∧
    loginUser loginStore ⟨"test@example.com", ""⟩ 9 =
      .error .InvalidCredentials := by
  exact ⟨rfl, fun storedHash => ⟨_, _, rfl, rfl, rfl, rfl⟩, rfl, rfl⟩

/-! ## Claim C10 -/

/-- C10: getMessages has no acting-user parameter and performs no membership
filtering: a supplied channel_id returns that channel's messages newest
first, paginated by page and limit; with both destination fields omitted it
pages through every message of the entire store; and its result never
depends on the users, channels, memberships or conversations tables. -/
theorem getMessages_no_identity_filtering
    (s : Store) (c p l : Nat) (hp : ¬ p = 0) (hl : ¬ l = 0) :
    getMessages s { channel_id := some (some c)
                    direct_message_recipient_id := none
                    page := some p
                    limit := some l } =
      .ok (((sortDesc (s.messages.filter (fun m =>
        m.channel_id = some c))).drop ((p - 1) * l)).take l) ∧
    getMessages s { channel_id := none
                    direct_message_recipient_id := none
                    page := some p
                    limit := some l } =
      .ok (((sortDesc s.messages).drop ((p - 1) * l)).take l) ∧
    ∀ input : GetMessagesInput, getMessages s input =
      getMessages { s with
        users := []
        channels := []
        memberships := []
        conversations := [] } input := by
  refine ⟨?_, ?_, fun input => rfl⟩
  · unfold getMessages
    simp [hp, hl]
  · unfold getMessages
    simp [hp, hl]

/-- Witness for C10 on a concrete three-message store. -/
theorem getMessages_no_identity_filtering_witness :
    ¬ (1 : Nat) = 0 ∧ ¬ (2 : Nat) = 0 ∧
    getMessages searchSmallStore { channel_id := some (some 1)
                                   direct_message_recipient_id := none
                                   page := some 1
                                   limit := some 2 } =
      .ok (((sortDesc (searchSmallStore.messages.filter (fun m =>
        m.channel_id = some 1))).drop ((1 - 1) * 2)).take 2) :=
  ⟨by decide, by decide,
    (getMessages_no_identity_filtering searchSmallStore 1 1 2
      (by decide) (by decide)).1⟩

/-! ## Claim C7 -/

theorem countP_or_of_not_both {α : Type} {p q : α → Bool} {l : List α}
    (h : ∀ x ∈ l, ¬(p x = true ∧ q x = true)) :
    l.countP (fun x => p x || q x) = l.countP p + l.countP q := by
  induction l with
  | nil => rfl
  | cons a t ih =>
    have ha := h a (List.mem_cons_self a t)
    have ih' := ih (fun x hx => h x (List.mem_cons_of_mem a hx))
    simp only [List.countP_cons]
    by_cases hp : p a
    · have hq : ¬ q a = true := fun hq => ha ⟨hp, hq⟩
      simp [hp, hq, ih']
      omega
    · by_cases hq : q a
      · simp [hp, hq, ih']
        omega
      · simp [hp, hq, ih']

/-- The user-existence precheck of createDirectMessageConversation counts
one row for a self pair and two rows otherwise (under unique user ids). -/
theorem conv_users_check {s : Store} {a b : Nat}
    (hids : (s.users.map User.id).Nodup)
    (ha : ∃ u ∈ s.users, u.id = a) (hb : ∃ u ∈ s.users, u.id = b) :
    (s.users.filter (fun u => decide (u.id = a ∨ u.id = b))).length =
      (if a = b then 1 else 2) := by
  obtain ⟨ua, hua, huaid⟩ := ha
  obtain ⟨ub, hub, hubid⟩ := hb
  rw [← List.countP_eq_length_filter]
  by_cases hab : a = b
  · subst hab
    rw [if_pos rfl]
    have hcong : ∀ u ∈ s.users,
        (decide (u.id = a ∨ u.id = a) = true) ↔ (decide (u.id = ua.id) = true) := by
      intro u hu
      simp [huaid]
    rw [List.countP_congr hcong]
    exact countP_key_one hids hua
  · rw [if_neg hab]
    have hcong : ∀ u ∈ s.users,
        (decide (u.id = a ∨ u.id = b) = true) ↔
          ((decide (u.id = a) || decide (u.id = b)) = true) := by
      intro u hu
      simp
    rw [List.countP_congr hcong]
    rw [countP_or_of_not_both (by
      intro u hu hboth
      simp only [decide_eq_true_eq] at hboth
      exact hab (hboth.1 ▸ hboth.2 ▸ rfl))]
    have h1 : s.users.countP (fun u => decide (u.id = a)) = 1 := by
      rw [← huaid]
      exact countP_key_one hids hua
    have h2 : s.users.countP (fun u => decide (u.id = b)) = 1 := by
      rw [← hubid]
      exact countP_key_one hids hub
    rw [h1, h2]

/-- Matching the pair in either order is symmetric in the pair. -/
theorem pairRows_comm (s : Store) (a b : Nat) :
    pairRows s b a = pairRows s a b := by
  unfold pairRows
  apply List.filter_congr
  intro c hc
  simp only [decide_eq_decide]
  exact or_comm

/-- Evaluation of createDirectMessageConversation once the user precheck is
known to pass: return the first either-order match unchanged, else insert. -/
theorem createDMC_eval (s : Store) (a b : Nat) (now : Nat)
    (hok : (s.users.filter (fun u => decide (u.id = a ∨ u.id = b))).length =
      (if a = b then 1 else 2)) :
    createDirectMessageConversation s ⟨a, b⟩ now =
      match pairRows s a b with
      | conv :: _ => .ok (conv, s)
      | [] =>
        .ok ((⟨s.nextConversationId, a, b, now, now⟩ : Conversation),
          { s with
            conversations :=
              s.conversations ++ [⟨s.nextConversationId, a, b, now, now⟩]
            nextConversationId := s.nextConversationId + 1 }) := by
  unfold createDirectMessageConversation pairRows
  rw [if_neg (by rw [hok]; exact fun h => h rfl)]

/-- C7: direct-message conversation creation is commutative and idempotent:
for two existing users a and b, the call for (a,b) succeeds with some row,
after which the calls for (b,a) and for (a,b) both return that same row and
leave the store untouched; a pre-existing row for the pair is returned
unchanged with no insert and no timestamp bump; and no single call — with
any input pair — ever raises the number of rows matching the unordered pair
{a,b} above one. -/
theorem createDirectMessageConversation_pair_unique
    (s : Store) (a b : Nat)
    (hids : (s.users.map User.id).Nodup)
    (ha : ∃ u ∈ s.users, u.id = a) (hb : ∃ u ∈ s.users, u.id = b)
    (h1 : (pairRows s a b).length ≤ 1) :
    (∀ now, ∃ conv s₁,
      createDirectMessageConversation s ⟨a, b⟩ now = .ok (conv, s₁) ∧
      (pairRows s₁ a b).length = 1 ∧
      ∀ now₂,
        createDirectMessageConversation s₁ ⟨b, a⟩ now₂ = .ok (conv, s₁) ∧
        createDirectMessageConversation s₁ ⟨a, b⟩ now₂ = .ok (conv, s₁)) ∧
    (∀ conv, pairRows s a b = [conv] →
      ∀ now, createDirectMessageConversation s ⟨a, b⟩ now = .ok (conv, s)) ∧
    (∀ (t : Store) (input : CreateConversationInput) (now : Nat),
      (pairRows t a b).length ≤ 1 →
      (pairRows (applyConversationOp t input now) a b).length ≤ 1) := by
  have hlab := conv_users_check hids ha hb
  have hlba := conv_users_check hids hb ha
  refine ⟨?_, ?_, ?_⟩
  · intro now
    cases hpr : pairRows s a b with
    | nil =>
      set conv : Conversation := ⟨s.nextConversationId, a, b, now, now⟩ with hconv
      set s₁ : Store :=
        { s with
          conversations := s.conversations ++ [conv]
          nextConversationId := s.nextConversationId + 1 } with hs₁
      have hps₁ : pairRows s₁ a b = [conv] := by
        have hbase : pairRows s a b = [] := hpr
        unfold pairRows at hbase ⊢
        show (s.conversations ++ [conv]).filter _ = _
        rw [List.filter_append, hbase]
        simp
      refine ⟨conv, s₁, ?_, ?_, ?_⟩
      · rw [createDMC_eval s a b now hlab, hpr]
      · rw [hps₁]
        rfl
      · intro now₂
        constructor
        · rw [createDMC_eval s₁ b a now₂ hlba, pairRows_comm, hps₁]
        · rw [createDMC_eval s₁ a b now₂ hlab, hps₁]
    | cons conv rest =>
      have hrest : rest = [] := by
        rw [hpr] at h1
        simp only [List.length_cons] at h1
        exact List.eq_nil_of_length_eq_zero (by omega)
      subst hrest
      refine ⟨conv, s, ?_, ?_, ?_⟩
      · rw [createDMC_eval s a b now hlab, hpr]
      · rw [hpr]
        rfl
      · intro now₂
        constructor
        · rw [createDMC_eval s b a now₂ hlba, pairRows_comm, hpr]
        · rw [createDMC_eval s a b now₂ hlab, hpr]
  · intro conv hconv now
    rw [createDMC_eval s a b now hlab, hconv]
  · intro t input now hle
    unfold applyConversationOp createDirectMessageConversation
    by_cases hchk : ¬ (t.users.filter (fun u =>
        decide (u.id = input.user1_id ∨ u.id = input.user2_id))).length =
        (if input.user1_id = input.user2_id then 1 else 2)
    · rw [if_pos hchk]
      exact hle
    · rw [if_neg hchk]
      cases hfil : t.conversations.filter (fun c =>
          decide ((c.user1_id = input.user1_id ∧
            c.user2_id = input.user2_id) ∨
          (c.user1_id = input.user2_id ∧
            c.user2_id = input.user1_id))) with
      | cons conv rest =>
        exact hle
      | nil =>
        show (pairRows { t with
          conversations := t.conversations ++
            [⟨t.nextConversationId, input.user1_id, input.user2_id, now, now⟩]
          nextConversationId := t.nextConversationId + 1 } a b).length ≤ 1
        unfold pairRows at hle ⊢
        show ((t.conversations ++ [_]).filter _).length ≤ 1
        rw [List.filter_append]
        by_cases hmatch : (input.user1_id = a ∧ input.user2_id = b) ∨
            (input.user1_id = b ∧ input.user2_id = a)
        · have hbase : t.conversations.filter (fun c =>
              decide ((c.user1_id = a ∧ c.user2_id = b) ∨
                (c.user1_id = b ∧ c.user2_id = a))) = [] := by
            rw [← hfil]
            apply List.filter_congr
            intro c hc
            simp only [decide_eq_decide]
            rcases hmatch with ⟨h1', h2'⟩ | ⟨h1', h2'⟩
            · rw [h1', h2']
            · rw [h1', h2']
              exact or_comm
          rw [hbase]
          simpa using List.length_filter_le _
            [(⟨t.nextConversationId, input.user1_id, input.user2_id,
              now, now⟩ : Conversation)]
        · have hnew : (List.filter (fun c =>
              decide ((c.user1_id = a ∧ c.user2_id = b) ∨
                (c.user1_id = b ∧ c.user2_id = a)))
              [(⟨t.nextConversationId, input.user1_id, input.user2_id,
                now, now⟩ : Conversation)]) = [] := by
            simp only [List.filter, decide_eq_true_eq]
            rw [decide_eq_false (by simpa using hmatch)]
          rw [hnew]
          simpa using hle

/-- Witness for C7: two fresh users and an empty conversation table. -/
theorem createDirectMessageConversation_pair_unique_witness :
    ((initStore [mkUser 1, mkUser 2]).users.map User.id).Nodup ∧
    (pairRows (initStore [mkUser 1, mkUser 2]) 1 2).length ≤ 1 ∧
    ∃ conv s₁,
      createDirectMessageConversation (initStore [mkUser 1, mkUser 2])
        ⟨1, 2⟩ 5 = .ok (conv, s₁) ∧
      (pairRows s₁ 1 2).length = 1 ∧
      ∀ now₂,
        createDirectMessageConversation s₁ ⟨2, 1⟩ now₂ = .ok (conv, s₁) ∧
        createDirectMessageConversation s₁ ⟨1, 2⟩ now₂ = .ok (conv, s₁) :=
  ⟨by decide, by decide,
    (createDirectMessageConversation_pair_unique
      (initStore [mkUser 1, mkUser 2]) 1 2 (by decide) (by decide)
      (by decide) (by decide)).1 5⟩

/-! ## Shared lemmas about leaveChannel's succession update -/

/-- The ownership-transfer update (`set role = 'owner' where id = w.id`)
touches neither ids nor the (channel,user) pairs nor joined_at. -/
theorem promote_map_fields (w x : Membership) :
    ((if x.id = w.id then { x with role := Role.owner } else x).id = x.id ∧
     (if x.id = w.id then { x with role := Role.owner } else x).channel_id =
       x.channel_id ∧
     (if x.id = w.id then { x with role := Role.owner } else x).user_id =
       x.user_id ∧
     (if x.id = w.id then { x with role := Role.owner } else x).joined_at =
       x.joined_at) := by
  by_cases h : x.id = w.id <;> simp [h]

/-- Removing the (c,u) membership rows deletes nothing a predicate `Q` counts,
provided the unique (c,u) row fails `Q`. -/
theorem remove_pair_countP {l : List Membership} {c u : Nat} {m : Membership}
    (hpairn : (l.map (fun x => (x.channel_id, x.user_id))).Nodup)
    (hm : m ∈ l) (hcm : m.channel_id = c) (hum : m.user_id = u)
    (Q : Membership → Bool) (hQm : Q m = false) :
    (l.filter (fun x =>
      decide (¬ (x.channel_id = c ∧ x.user_id = u)))).countP Q = l.countP Q := by
  rw [List.countP_filter]
  apply List.countP_congr
  intro x hx
  by_cases hP : x.channel_id = c ∧ x.user_id = u
  · have hxm : x = m := by
      apply List.inj_on_of_nodup_map hpairn hx hm
      rw [hP.1, hP.2, hcm, hum]
    constructor
    · intro h
      exact (Bool.and_eq_true _ _).mp h |>.1
    · intro h
      rw [hxm, hQm] at h
      cases h
  · constructor
    · intro h
      exact (Bool.and_eq_true _ _).mp h |>.1
    · intro h
      refine (Bool.and_eq_true _ _).mpr ⟨h, ?_⟩
      simp [hP]

/-- Removing the (c,u) rows lowers the channel-c membership count by exactly
one: the unique (c,u) row is a channel-c row. -/
theorem remove_pair_count_dec {l : List Membership} {c u : Nat}
    {m : Membership}
    (hpairn : (l.map (fun x => (x.channel_id, x.user_id))).Nodup)
    (hm : m ∈ l) (hcm : m.channel_id = c) (hum : m.user_id = u) :
    (l.filter (fun x =>
      decide (¬ (x.channel_id = c ∧ x.user_id = u)))).countP
        (fun x => decide (x.channel_id = c)) + 1 =
      l.countP (fun x => decide (x.channel_id = c)) := by
  rw [List.countP_filter]
  have hsplit := countP_split (fun x : Membership => decide (x.channel_id = c))
    (fun x => decide (x.channel_id = c ∧ x.user_id = u)) l
  have hpair1 : l.countP (fun x =>
      decide (x.channel_id = c) &&
        decide (x.channel_id = c ∧ x.user_id = u)) = 1 := by
    have hcg : l.countP (fun x =>
        decide (x.channel_id = c) &&
          decide (x.channel_id = c ∧ x.user_id = u)) =
        l.countP (fun x =>
          decide ((x.channel_id, x.user_id) = (m.channel_id, m.user_id))) := by
      apply List.countP_congr
      intro x hx
      simp only [Bool.and_eq_true, decide_eq_true_eq, Prod.mk.injEq]
      rw [hcm, hum]
      tauto
    rw [hcg]
    exact countP_key_one hpairn hm
  have hswap : l.countP (fun x =>
      decide (x.channel_id = c) &&
        decide (¬ (x.channel_id = c ∧ x.user_id = u))) =
      l.countP (fun x =>
        decide (x.channel_id = c) &&
          !decide (x.channel_id = c ∧ x.user_id = u)) := by
    apply List.countP_congr
    intro x hx
    rw [decide_not]
  rw [hswap]
  omega

/-- leaveChannel throws NotAMember when no membership row matches. -/
theorem leaveChannel_eval_notmember (s : Store) (input : MembershipInput)
    (hf : s.memberships.filter (fun x =>
      decide (x.channel_id = input.channel_id ∧
        x.user_id = input.user_id)) = []) :
    leaveChannel s input = .error .NotAMember := by
  unfold leaveChannel
  rw [hf]

/-- leaveChannel on a non-owner deletes just that membership. -/
theorem leaveChannel_eval_nonowner (s : Store) (input : MembershipInput)
    (m : Membership) (tl : List Membership)
    (hf : s.memberships.filter (fun x =>
      decide (x.channel_id = input.channel_id ∧
        x.user_id = input.user_id)) = m :: tl)
    (hrole : ¬ m.role = Role.owner) :
    leaveChannel s input =
      .ok (true, removeMembershipRows s input.channel_id input.user_id) := by
  unfold leaveChannel
  rw [hf]
  simp only [if_neg hrole]

/-- leaveChannel on an owner with no other member deletes the channel. -/
theorem leaveChannel_eval_delete (s : Store) (input : MembershipInput)
    (m : Membership) (tl : List Membership)
    (hf : s.memberships.filter (fun x =>
      decide (x.channel_id = input.channel_id ∧
        x.user_id = input.user_id)) = m :: tl)
    (hrole : m.role = Role.owner)
    (hrem : (s.memberships.filter (fun x =>
      decide (x.channel_id = input.channel_id))).filter
        (fun x => decide (¬ x.user_id = input.user_id)) = []) :
    leaveChannel s input = .ok (true, deleteChannelCascade s input.channel_id) := by
  unfold leaveChannel
  rw [hf]
  simp only [if_pos hrole, hrem]

/-- leaveChannel on an owner with other members promotes the first admin
among them — else the first of them — then deletes the departing row. -/
theorem leaveChannel_eval_promote (s : Store) (input : MembershipInput)
    (m : Membership) (tl : List Membership) (r : Membership)
    (rl : List Membership)
    (hf : s.memberships.filter (fun x =>
      decide (x.channel_id = input.channel_id ∧
        x.user_id = input.user_id)) = m :: tl)
    (hrole : m.role = Role.owner)
    (hrem : (s.memberships.filter (fun x =>
      decide (x.channel_id = input.channel_id))).filter
        (fun x => decide (¬ x.user_id = input.user_id)) = r :: rl) :
    leaveChannel s input = .ok (true,
      removeMembershipRows
        { s with memberships := s.memberships.map (fun x =>
            if x.id = (((r :: rl).filter
                (fun y => decide (y.role = Role.admin))).headD r).id
            then { x with role := Role.owner } else x) }
        input.channel_id input.user_id) := by
  unfold leaveChannel
  rw [hf]
  simp only [if_pos hrole, hrem]

/-- After promoting the remaining row `w` of channel `c` to owner and
deleting the departing owner's (c,u) row, channel `c` has exactly one owner
row (under unique ids and pairs, with the departing row the only owner). -/
theorem promote_remove_ownerCount {l : List Membership} {c u : Nat}
    {m w : Membership}
    (hidn : (l.map Membership.id).Nodup)
    (hpairn : (l.map (fun x => (x.channel_id, x.user_id))).Nodup)
    (hm : m ∈ l) (hcm : m.channel_id = c) (hum : m.user_id = u)
    (hw : w ∈ l) (hwc : w.channel_id = c) (hwu : ¬ w.user_id = u)
    (hone : ∀ x ∈ l, x.channel_id = c → ¬ x.user_id = u →
      ¬ x.role = Role.owner) :
    ((l.map (fun x =>
        if x.id = w.id then { x with role := Role.owner } else x)).filter
      (fun x => decide (¬ (x.channel_id = c ∧ x.user_id = u)))).countP
        (fun x => decide (x.channel_id = c ∧ x.role = Role.owner)) = 1 := by
  rw [List.countP_filter, List.countP_map]
  have hcg : l.countP ((fun x =>
      decide (x.channel_id = c ∧ x.role = Role.owner) &&
        decide (¬ (x.channel_id = c ∧ x.user_id = u))) ∘ (fun x =>
      if x.id = w.id then { x with role := Role.owner } else x)) =
      l.countP (fun x => decide (x.id = w.id)) := by
    apply List.countP_congr
    intro x hx
    simp only [Function.comp]
    by_cases hid : x.id = w.id
    · have hxw : x = w := List.inj_on_of_nodup_map hidn hx hw hid
      subst hxw
      simp [hwc, hwu]
    · simp only [if_neg hid, Bool.and_eq_true, decide_eq_true_eq]
      constructor
      · rintro ⟨⟨h1, h2⟩, h3⟩
        by_cases huser : x.user_id = u
        · exact absurd ⟨h1, huser⟩ h3
        · exact absurd h2 (hone x hx h1 huser)
      · intro h
        exact absurd h hid
  rw [hcg]
  exact countP_key_one hidn hw

/-- The same promote-then-remove step leaves the owner rows of every other
channel `d ≠ c` untouched. -/
theorem promote_remove_countP_other {l : List Membership} {c u d : Nat}
    {w : Membership}
    (hidn : (l.map Membership.id).Nodup)
    (hw : w ∈ l) (hwc : w.channel_id = c) (hdc : ¬ d = c) :
    ((l.map (fun x =>
        if x.id = w.id then { x with role := Role.owner } else x)).filter
      (fun x => decide (¬ (x.channel_id = c ∧ x.user_id = u)))).countP
        (fun x => decide (x.channel_id = d ∧ x.role = Role.owner)) =
      l.countP (fun x => decide (x.channel_id = d ∧ x.role = Role.owner)) := by
  rw [List.countP_filter, List.countP_map]
  apply List.countP_congr
  intro x hx
  simp only [Function.comp]
  by_cases hid : x.id = w.id
  · have hxw : x = w := List.inj_on_of_nodup_map hidn hx hw hid
    have hChan : x.channel_id = c := by rw [hxw]; exact hwc
    simp only [if_pos hid, Bool.and_eq_true, decide_eq_true_eq]
    constructor
    · rintro ⟨⟨h1, h2⟩, h3⟩
      exact absurd (h1.symm.trans hChan) hdc
    · rintro ⟨h1, h2⟩
      exact absurd (h1.symm.trans hChan) hdc
  · simp only [if_neg hid, Bool.and_eq_true, decide_eq_true_eq]
    constructor
    · rintro ⟨h1, h2⟩
      exact h1
    · rintro ⟨h1, h2⟩
      refine ⟨⟨h1, h2⟩, ?_⟩
      rintro ⟨h3, h4⟩
      exact hdc (h3.symm.trans h1).symm

/-- The promote-then-remove step lowers channel `c`'s membership count by
exactly one. -/
theorem promote_remove_chanCount {l : List Membership} {c u : Nat}
    {m w : Membership}
    (hpairn : (l.map (fun x => (x.channel_id, x.user_id))).Nodup)
    (hm : m ∈ l) (hcm : m.channel_id = c) (hum : m.user_id = u) :
    ((l.map (fun x =>
        if x.id = w.id then { x with role := Role.owner } else x)).filter
      (fun x => decide (¬ (x.channel_id = c ∧ x.user_id = u)))).countP
        (fun x => decide (x.channel_id = c)) + 1 =
      l.countP (fun x => decide (x.channel_id = c)) := by
  have hbase := remove_pair_count_dec hpairn hm hcm hum
  rw [List.countP_filter] at hbase ⊢
  rw [List.countP_map]
  have hcg : l.countP ((fun x =>
      decide (x.channel_id = c) &&
        decide (¬ (x.channel_id = c ∧ x.user_id = u))) ∘ (fun x =>
      if x.id = w.id then { x with role := Role.owner } else x)) =
      l.countP (fun x =>
        decide (x.channel_id = c) &&
          decide (¬ (x.channel_id = c ∧ x.user_id = u))) := by
    apply List.countP_congr
    intro x hx
    simp only [Function.comp]
    by_cases hid : x.id = w.id <;> simp [hid]
  rw [hcg]
  exact hbase

/-- C1: when the departing user's membership is the channel's owner and at
least one other membership row of the channel exists, leaveChannel succeeds
returning true, promotes exactly one remaining membership to owner — an
admin membership if any admin remains, otherwise one of the remaining member
rows — updating only that row's role (its id and joined_at survive inside
the promoted row), deletes the departing owner's row, and decreases the
channel's membership count by exactly one; afterwards the channel again has
exactly one owner row, every other membership row is carried over unchanged,
and no row appears from nowhere. -/
theorem leaveChannel_owner_succession
    (s : Store) (c u : Nat) (m : Membership) (roleArg : Option Role)
    (hidn : (s.memberships.map Membership.id).Nodup)
    (hpairn : (s.memberships.map (fun x => (x.channel_id, x.user_id))).Nodup)
    (hm : m ∈ s.memberships) (hcm : m.channel_id = c) (hum : m.user_id = u)
    (hrole : m.role = Role.owner)
    (hother : ∃ x ∈ s.memberships, x.channel_id = c ∧ ¬ x.user_id = u)
    (hone : ∀ x ∈ s.memberships, x.channel_id = c → ¬ x.user_id = u →
      ¬ x.role = Role.owner) :
    ∃ s' w, leaveChannel s ⟨c, u, roleArg⟩ = .ok (true, s') ∧
      w ∈ s.memberships ∧ w.channel_id = c ∧ ¬ w.user_id = u ∧
      ((∃ x ∈ s.memberships, x.channel_id = c ∧ ¬ x.user_id = u ∧
        x.role = Role.admin) → w.role = Role.admin) ∧
      (¬ (∃ x ∈ s.memberships, x.channel_id = c ∧ ¬ x.user_id = u ∧
        x.role = Role.admin) → w.role = Role.member) ∧
      { w with role := Role.owner } ∈ s'.memberships ∧
      (∀ x ∈ s'.memberships, ¬ (x.channel_id = c ∧ x.user_id = u)) ∧
      s'.memberships.countP (fun x => decide (x.channel_id = c)) + 1 =
        s.memberships.countP (fun x => decide (x.channel_id = c)) ∧
      ownerCount s' c = 1 ∧
      (∀ x ∈ s.memberships, ¬ x.id = w.id →
        ¬ (x.channel_id = c ∧ x.user_id = u) → x ∈ s'.memberships) ∧
      (∀ y ∈ s'.memberships, y ∈ s.memberships ∨
        y = { w with role := Role.owner }) ∧
      s'.channels = s.channels := by
  have hmf : m ∈ s.memberships.filter (fun x =>
      decide (x.channel_id = c ∧ x.user_id = u)) :=
    List.mem_filter.mpr ⟨hm, by simp [hcm, hum]⟩
  cases hf : s.memberships.filter (fun x =>
      decide (x.channel_id = c ∧ x.user_id = u)) with
  | nil => rw [hf] at hmf; cases hmf
  | cons hd tl =>
    have hhdm : hd = m := by
      have hhd' : hd ∈ s.memberships.filter (fun x =>
          decide (x.channel_id = c ∧ x.user_id = u)) := by
        rw [hf]; exact List.mem_cons_self hd tl
      have hdec := List.mem_filter.mp hhd'
      have hprop := of_decide_eq_true hdec.2
      exact List.inj_on_of_nodup_map hpairn hdec.1 hm
        (by rw [hprop.1, hprop.2, hcm, hum])
    obtain ⟨x0, hx0mem, hx0c, hx0u⟩ := hother
    have hx0rem : x0 ∈ (s.memberships.filter (fun x =>
        decide (x.channel_id = c))).filter
          (fun x => decide (¬ x.user_id = u)) :=
      List.mem_filter.mpr
        ⟨List.mem_filter.mpr ⟨hx0mem, by simp [hx0c]⟩, by simp [hx0u]⟩
    cases hrem : (s.memberships.filter (fun x =>
        decide (x.channel_id = c))).filter
          (fun x => decide (¬ x.user_id = u)) with
    | nil => rw [hrem] at hx0rem; cases hx0rem
    | cons r rl =>
      have hremfacts : ∀ y ∈ r :: rl,
          y ∈ s.memberships ∧ y.channel_id = c ∧ ¬ y.user_id = u := by
        intro y hy
        rw [← hrem] at hy
        have h1 := List.mem_filter.mp hy
        have h2 := List.mem_filter.mp h1.1
        exact ⟨h2.1, by simpa using h2.2, by simpa using h1.2⟩
      have heval := leaveChannel_eval_promote s ⟨c, u, roleArg⟩ m tl r rl
        (hhdm ▸ hf) hrole hrem
      have build : ∀ w : Membership, w ∈ s.memberships → w.channel_id = c →
          ¬ w.user_id = u →
          leaveChannel s ⟨c, u, roleArg⟩ = .ok (true,
            removeMembershipRows
              { s with memberships := s.memberships.map (fun x =>
                  if x.id = w.id then { x with role := Role.owner } else x) }
              c u) →
          ((∃ x ∈ s.memberships, x.channel_id = c ∧ ¬ x.user_id = u ∧
            x.role = Role.admin) → w.role = Role.admin) →
          (¬ (∃ x ∈ s.memberships, x.channel_id = c ∧ ¬ x.user_id = u ∧
            x.role = Role.admin) → w.role = Role.member) →
          ∃ s' w', leaveChannel s ⟨c, u, roleArg⟩ = .ok (true, s') ∧
            w' ∈ s.memberships ∧ w'.channel_id = c ∧ ¬ w'.user_id = u ∧
            ((∃ x ∈ s.memberships, x.channel_id = c ∧ ¬ x.user_id = u ∧
              x.role = Role.admin) → w'.role = Role.admin) ∧
            (¬ (∃ x ∈ s.memberships, x.channel_id = c ∧ ¬ x.user_id = u ∧
              x.role = Role.admin) → w'.role = Role.member) ∧
            { w' with role := Role.owner } ∈ s'.memberships ∧
            (∀ x ∈ s'.memberships, ¬ (x.channel_id = c ∧ x.user_id = u)) ∧
            s'.memberships.countP (fun x => decide (x.channel_id = c)) + 1 =
              s.memberships.countP (fun x => decide (x.channel_id = c)) ∧
            ownerCount s' c = 1 ∧
            (∀ x ∈ s.memberships, ¬ x.id = w'.id →
              ¬ (x.channel_id = c ∧ x.user_id = u) → x ∈ s'.memberships) ∧
            (∀ y ∈ s'.memberships, y ∈ s.memberships ∨
              y = { w' with role := Role.owner }) ∧
            s'.channels = s.channels := by
        intro w hwmem hwc hwu hevalw hadm1 hadm2
        refine ⟨_, w, hevalw, hwmem, hwc, hwu, hadm1, hadm2,
          ?_, ?_, ?_, ?_, ?_, ?_, rfl⟩
        · refine List.mem_filter.mpr ⟨?_, by simp [hwu]⟩
          have hmm := List.mem_map_of_mem (fun x =>
            if x.id = w.id then { x with role := Role.owner } else x) hwmem
          simpa using hmm
        · intro x hx
          have := List.mem_filter.mp hx
          exact of_decide_eq_true this.2
        · exact promote_remove_chanCount hpairn hm hcm hum
        · exact promote_remove_ownerCount hidn hpairn hm hcm hum
            hwmem hwc hwu hone
        · intro x hxm hxid hxpair
          refine List.mem_filter.mpr ⟨?_, decide_eq_true hxpair⟩
          have hmm := List.mem_map_of_mem (fun y =>
            if y.id = w.id then { y with role := Role.owner } else y) hxm
          simpa [if_neg hxid] using hmm
        · intro y hy
          have hy1 := (List.mem_filter.mp hy).1
          obtain ⟨x, hxm, hxy⟩ := List.mem_map.mp hy1
          by_cases hid : x.id = w.id
          · have hxw : x = w := List.inj_on_of_nodup_map hidn hxm hwmem hid
            right
            rw [← hxy, hxw, if_pos rfl]
          · left
            rw [← hxy, if_neg hid]
            exact hxm
      cases hadm : (r :: rl).filter (fun y => decide (y.role = Role.admin)) with
      | cons a al =>
        have hain : a ∈ (r :: rl).filter (fun y =>
            decide (y.role = Role.admin)) := by
          rw [hadm]; exact List.mem_cons_self a al
        have ha1 := List.mem_filter.mp hain
        have harole : a.role = Role.admin := of_decide_eq_true ha1.2
        obtain ⟨hamem, hac, hau⟩ := hremfacts a ha1.1
        refine build a hamem hac hau ?_ (fun _ => harole) ?_
        · rw [heval, hadm]
          rfl
        · intro hno
          exact absurd ⟨a, hamem, hac, hau, harole⟩ hno
      | nil =>
        have hnoadm : ¬ ∃ x ∈ s.memberships, x.channel_id = c ∧
            ¬ x.user_id = u ∧ x.role = Role.admin := by
          rintro ⟨x, hxm, hxc, hxu, hxa⟩
          have hxrem : x ∈ r :: rl := by
            rw [← hrem]
            exact List.mem_filter.mpr
              ⟨List.mem_filter.mpr ⟨hxm, by simp [hxc]⟩, by simp [hxu]⟩
          have : x ∈ (r :: rl).filter (fun y =>
              decide (y.role = Role.admin)) :=
            List.mem_filter.mpr ⟨hxrem, by simp [hxa]⟩
          rw [hadm] at this
          cases this
        obtain ⟨hrmem, hrc, hru⟩ := hremfacts r (List.mem_cons_self r rl)
        have hrrole : r.role = Role.member := by
          have hno : ¬ r.role = Role.owner := hone r hrmem hrc hru
          have hna : ¬ r.role = Role.admin := by
            intro h
            exact absurd ⟨r, hrmem, hrc, hru, h⟩ hnoadm
          cases hrr : r.role with
          | owner => exact absurd hrr hno
          | admin => exact absurd hrr hna
          | member => rfl
        refine build r hrmem hrc hru ?_
          (fun hex => absurd hex hnoadm) (fun _ => hrrole)
        rw [heval, hadm]
        rfl

/-- Witness for C1 at the concrete channel with owner 10, admin 20 and
member 30: the departing owner's leave succeeds and the succession facts
hold. -/
theorem leaveChannel_owner_succession_witness :
    (succStore.memberships.map Membership.id).Nodup ∧
    (⟨1, 1, 10, Role.owner, 0⟩ : Membership) ∈ succStore.memberships ∧
    (∃ x ∈ succStore.memberships, x.channel_id = 1 ∧ ¬ x.user_id = 10) ∧
    ∃ s' w, leaveChannel succStore ⟨1, 10, none⟩ = .ok (true, s') ∧
      w ∈ succStore.memberships ∧ w.channel_id = 1 ∧ ¬ w.user_id = 10 ∧
      ((∃ x ∈ succStore.memberships, x.channel_id = 1 ∧ ¬ x.user_id = 10 ∧
        x.role = Role.admin) → w.role = Role.admin) ∧
      (¬ (∃ x ∈ succStore.memberships, x.channel_id = 1 ∧ ¬ x.user_id = 10 ∧
        x.role = Role.admin) → w.role = Role.member) ∧
      { w with role := Role.owner } ∈ s'.memberships ∧
      (∀ x ∈ s'.memberships, ¬ (x.channel_id = 1 ∧ x.user_id = 10)) ∧
      s'.memberships.countP (fun x => decide (x.channel_id = 1)) + 1 =
        succStore.memberships.countP (fun x => decide (x.channel_id = 1)) ∧
      ownerCount s' 1 = 1 ∧
      (∀ x ∈ succStore.memberships, ¬ x.id = w.id →
        ¬ (x.channel_id = 1 ∧ x.user_id = 10) → x ∈ s'.memberships) ∧
      (∀ y ∈ s'.memberships, y ∈ succStore.memberships ∨
        y = { w with role := Role.owner }) ∧
      s'.channels = succStore.channels :=
  ⟨by decide, by decide, by decide,
    leaveChannel_owner_succession succStore 1 10 ⟨1, 1, 10, Role.owner, 0⟩
      none (by decide) (by decide) (by decide) rfl rfl rfl (by decide)
      (by decide)⟩

/-- Filtering a list by the key of one of its elements returns exactly that
element, when keys are unique. -/
theorem filter_key_eq {α β : Type} [DecidableEq β] {f : α → β} {l : List α}
    {x : α} (hn : (l.map f).Nodup) (hx : x ∈ l) :
    l.filter (fun a => decide (f a = f x)) = [x] := by
  induction l with
  | nil => cases hx
  | cons a t ih =>
    simp only [List.map_cons, List.nodup_cons] at hn
    rcases List.mem_cons.mp hx with rfl | hx'
    · rw [List.filter_cons_of_pos (by simp)]
      have ht : t.filter (fun b => decide (f b = f x)) = [] := by
        rw [List.filter_eq_nil_iff]
        intro b hb hfb
        exact hn.1 ((of_decide_eq_true hfb) ▸ List.mem_map_of_mem f hb)
      rw [ht]
    · have hne : ¬ f a = f x := by
        intro h
        exact hn.1 (h ▸ List.mem_map_of_mem f hx')
      rw [List.filter_cons_of_neg (by simp [hne])]
      exact ih hn.2 hx'

/-- deleteMessage throws MessageNotFound when no row matches the id. -/
theorem deleteMessage_eval_notfound (s : Store) (mid uid : Nat)
    (hfil : s.messages.filter (fun x => decide (x.id = mid)) = []) :
    deleteMessage s mid uid = .error .MessageNotFound := by
  unfold deleteMessage
  rw [hfil]

/-- C5: deleteMessage fails MessageNotFound when the id is absent — in
particular a second delete of the same id fails MessageNotFound rather than
returning false — and for a stored message it succeeds returning true,
removing the row, exactly when the acting user is the sender or the message
is a channel message and the acting user holds an owner or admin membership
of that channel; in every other case it fails Unauthorized (an Except error
leaves the store as it was, so the message remains stored). -/
theorem deleteMessage_authorization (s : Store) (mid uid : Nat)
    (hmidn : (s.messages.map Message.id).Nodup)
    (hpairn : (s.memberships.map (fun x => (x.channel_id, x.user_id))).Nodup)
    (hchan0 : ∀ msg ∈ s.messages, ¬ msg.channel_id = some 0) :
    ((∀ msg ∈ s.messages, ¬ msg.id = mid) →
      deleteMessage s mid uid = .error .MessageNotFound) ∧
    (∀ uid₂, deleteMessage
      { s with messages := s.messages.filter (fun x => ¬ x.id = mid) }
      mid uid₂ = .error .MessageNotFound) ∧
    (∀ msg ∈ s.messages, msg.id = mid →
      ((msg.sender_id = uid ∨
        (∃ cid mb, msg.channel_id = some cid ∧ mb ∈ s.memberships ∧
          mb.channel_id = cid ∧ mb.user_id = uid ∧
          (mb.role = Role.owner ∨ mb.role = Role.admin))) →
        deleteMessage s mid uid = .ok (true,
          { s with messages := s.messages.filter (fun x => ¬ x.id = mid) })) ∧
      (¬ (msg.sender_id = uid ∨
        (∃ cid mb, msg.channel_id = some cid ∧ mb ∈ s.memberships ∧
          mb.channel_id = cid ∧ mb.user_id = uid ∧
          (mb.role = Role.owner ∨ mb.role = Role.admin))) →
        deleteMessage s mid uid = .error .Unauthorized)) := by
  refine ⟨?_, ?_, ?_⟩
  · intro hno
    apply deleteMessage_eval_notfound
    rw [List.filter_eq_nil_iff]
    intro a ha
    simpa using hno a ha
  · intro uid₂
    apply deleteMessage_eval_notfound
    show (s.messages.filter _).filter _ = []
    rw [List.filter_filter, List.filter_eq_nil_iff]
    intro a ha
    simp
  · intro msg hmsg hmid
    subst hmid
    have hfil : s.messages.filter (fun x => decide (x.id = msg.id)) = [msg] :=
      filter_key_eq hmidn hmsg
    constructor
    · intro hauth
      by_cases hsend : msg.sender_id = uid
      · unfold deleteMessage
        rw [hfil]
        simp [hsend]
      · rcases hauth with hsend' | ⟨cid, mb, hchan, hmbmem, hmbc, hmbu, hr⟩
        · exact absurd hsend' hsend
        · have hcid0 : ¬ cid = 0 := by
            intro h
            exact hchan0 msg hmsg (h ▸ hchan)
          have hmbfil : s.memberships.filter (fun x =>
              decide (x.channel_id = cid) && decide (x.user_id = uid)) =
              [mb] := by
            have hcg : s.memberships.filter (fun x =>
                decide (x.channel_id = cid) && decide (x.user_id = uid)) =
                s.memberships.filter (fun x =>
                  decide ((x.channel_id, x.user_id) =
                    (mb.channel_id, mb.user_id))) := by
              apply List.filter_congr
              intro x hx
              simp [Prod.ext_iff, hmbc, hmbu]
            rw [hcg]
            exact filter_key_eq hpairn hmbmem
          unfold deleteMessage
          rw [hfil]
          simp [hsend, hchan, truthyVal, hcid0, hmbfil, decide_eq_true hr]
    · intro hnauth
      have hsend : ¬ msg.sender_id = uid := fun h => hnauth (Or.inl h)
      unfold deleteMessage
      rw [hfil]
      cases hchan : msg.channel_id with
      | none => simp [hsend, hchan, truthyVal]
      | some cid =>
        have hcid0 : ¬ cid = 0 := by
          intro h
          exact hchan0 msg hmsg (h ▸ hchan)
        cases hmf : s.memberships.filter (fun x =>
            decide (x.channel_id = cid) && decide (x.user_id = uid)) with
        | nil => simp [hsend, hchan, truthyVal, hcid0, hmf]
        | cons mb' tl' =>
          have hmb' : mb' ∈ s.memberships ∧ mb'.channel_id = cid ∧
              mb'.user_id = uid := by
            have : mb' ∈ s.memberships.filter (fun x =>
                decide (x.channel_id = cid) && decide (x.user_id = uid)) := by
              rw [hmf]; exact List.mem_cons_self mb' tl'
            have h2 := List.mem_filter.mp this
            have h3 := Bool.and_eq_true _ _ |>.mp h2.2
            exact ⟨h2.1, of_decide_eq_true h3.1, of_decide_eq_true h3.2⟩
          have hnr : ¬ (mb'.role = Role.owner ∨ mb'.role = Role.admin) := by
            intro hr
            exact hnauth (Or.inr ⟨cid, mb', hchan, hmb'.1, hmb'.2.1,
              hmb'.2.2, hr⟩)
          simp [hsend, hchan, truthyVal, hcid0, hmf, decide_eq_false hnr]

/-- Witness for C5: in msgStore, channel owner 2 deletes member 3's message. -/
theorem deleteMessage_authorization_witness :
    (msgStore.messages.map Message.id).Nodup ∧
    ((⟨1, "hello", .text, 3, some 1, none, none, none, 5, 5⟩ : Message) ∈
      msgStore.messages) ∧
    deleteMessage msgStore 1 2 = .ok (true,
      { msgStore with
        messages := msgStore.messages.filter (fun x => ¬ x.id = 1) }) :=
  ⟨by decide, by decide,
    ((deleteMessage_authorization msgStore 1 2 (by decide) (by decide)
        (by decide)).2.2
      ⟨1, "hello", .text, 3, some 1, none, none, none, 5, 5⟩
      (by decide) rfl).1
      (Or.inr ⟨1, ⟨1, 1, 2, Role.owner, 0⟩, rfl, by decide, rfl, rfl,
        Or.inl rfl⟩)⟩

/-! ## Claim C4 -/

/-- JS truthiness coincides with presence for ids that are not the number 0. -/
theorem truthyVal_eq {o : Option Nat} (h : ¬ o = some 0) : truthyVal o = o := by
  cases o with
  | none => rfl
  | some n =>
    show (if n = 0 then none else some n) = some n
    rw [if_neg (fun hn => h (by rw [hn]))]

/-- A filter containing a hit is not empty. -/
theorem filter_not_isEmpty {α : Type} {p : α → Bool} {l : List α} {x : α}
    (hx : x ∈ l) (hp : p x = true) : ¬ (l.filter p).isEmpty = true := by
  rw [List.isEmpty_iff]
  intro h
  rw [List.filter_eq_nil_iff] at h
  exact h x hx hp

/-- A filter with no hits is empty. -/
theorem filter_isEmpty_of_none {α : Type} {p : α → Bool} {l : List α}
    (h : ∀ x ∈ l, ¬ p x = true) : (l.filter p).isEmpty = true := by
  rw [List.isEmpty_iff, List.filter_eq_nil_iff]
  exact h

/-- C4: for inputs whose supplied ids are nonzero (serial ids always are),
the transcribed createMessage handler agrees with the specification-worded
validation chain createMessageSpec: SenderNotFound, then MissingDestination,
then AmbiguousDestination, then ChannelNotFound before NotChannelMember for
a channel destination, RecipientNotFound before SelfMessage for a DM
destination, then ReplyTargetNotFound / ReplyChannelMismatch /
ReplyConversationMismatch, and on success the insert with edited_at null. -/
theorem createMessage_refines_spec (s : Store) (input : CreateMessageInput)
    (senderId now : Nat)
    (h1 : ¬ input.channel_id = some 0)
    (h2 : ¬ input.direct_message_recipient_id = some 0)
    (h3 : ¬ input.reply_to_message_id = some 0) :
    createMessage s input senderId now =
      createMessageSpec s input senderId now := by
  unfold createMessage createMessageSpec
  rw [truthyVal_eq h1, truthyVal_eq h2, truthyVal_eq h3]
  by_cases hs : ∃ u ∈ s.users, u.id = senderId
  · obtain ⟨u0, hu0, hu0id⟩ := hs
    have hs' : ∃ u ∈ s.users, u.id = senderId := ⟨u0, hu0, hu0id⟩
    have hsne : ¬ (s.users.filter
        (fun u => decide (u.id = senderId))).isEmpty = true :=
      filter_not_isEmpty hu0 (by simp [hu0id])
    have hsF : ¬ ∀ u ∈ s.users, ¬ u.id = senderId :=
      fun hall => hall u0 hu0 hu0id
    cases hcc : input.channel_id with
    | none =>
      cases hrr : input.direct_message_recipient_id with
      | none => simp [hsne, hs', hsF]
      | some rid =>
        by_cases hrec : ∃ v ∈ s.users, v.id = rid
        · obtain ⟨v0, hv0, hv0id⟩ := hrec
          have hrec' : ∃ v ∈ s.users, v.id = rid := ⟨v0, hv0, hv0id⟩
          have hrne : ¬ (s.users.filter
              (fun u => decide (u.id = rid))).isEmpty = true :=
            filter_not_isEmpty hv0 (by simp [hv0id])
          have hrF : ¬ ∀ v ∈ s.users, ¬ v.id = rid :=
            fun hall => hall v0 hv0 hv0id
          by_cases hself : rid = senderId
          · simp [hsne, hs', hsF, hrne, hrec', hrF, hself]
          · cases hq : input.reply_to_message_id with
            | none => simp [hsne, hs', hsF, hrne, hrec', hrF, hself]
            | some qid =>
              cases hfq : s.messages.filter (fun m => decide (m.id = qid)) with
              | nil =>
                simp [hsne, hs', hsF, hrne, hrec', hrF, hself,
                  findFirst_eq, hfq]
              | cons original tl =>
                simp [hsne, hs', hsF, hrne, hrec', hrF, hself,
                  findFirst_eq, hfq]
        · have hre : (s.users.filter
              (fun u => decide (u.id = rid))).isEmpty = true :=
            filter_isEmpty_of_none (fun v hv hpv =>
              hrec ⟨v, hv, of_decide_eq_true hpv⟩)
          simp [hsne, hs', hsF, hre, hrec]
    | some cid =>
      cases hrr : input.direct_message_recipient_id with
      | none =>
        by_cases hch : ∃ chn ∈ s.channels, chn.id = cid
        · obtain ⟨c0, hc0, hc0id⟩ := hch
          have hch' : ∃ chn ∈ s.channels, chn.id = cid := ⟨c0, hc0, hc0id⟩
          have hcne : ¬ (s.channels.filter
              (fun cc => decide (cc.id = cid))).isEmpty = true :=
            filter_not_isEmpty hc0 (by simp [hc0id])
          have hcF : ¬ ∀ chn ∈ s.channels, ¬ chn.id = cid :=
            fun hall => hall c0 hc0 hc0id
          by_cases hmem : ∃ mb ∈ s.memberships,
              mb.channel_id = cid ∧ mb.user_id = senderId
          · obtain ⟨m0, hm0, hm0p⟩ := hmem
            have hmem' : ∃ mb ∈ s.memberships,
                mb.channel_id = cid ∧ mb.user_id = senderId := ⟨m0, hm0, hm0p⟩
            have hmne : ¬ (s.memberships.filter (fun mb =>
                decide (mb.channel_id = cid ∧
                  mb.user_id = senderId))).isEmpty = true :=
              filter_not_isEmpty hm0 (by simp [hm0p.1, hm0p.2])
            have hmF : ¬ ∀ mb ∈ s.memberships,
                mb.channel_id = cid → ¬ mb.user_id = senderId :=
              fun hall => hall m0 hm0 hm0p.1 hm0p.2
            cases hq : input.reply_to_message_id with
            | none => simp [hsne, hs', hsF, hcne, hch', hcF, hmne, hmem', hmF]
            | some qid =>
              cases hfq : s.messages.filter (fun m => decide (m.id = qid)) with
              | nil =>
                simp [hsne, hs', hsF, hcne, hch', hcF, hmne, hmem', hmF,
                  findFirst_eq, hfq]
              | cons original tl =>
                simp [hsne, hs', hsF, hcne, hch', hcF, hmne, hmem', hmF,
                  findFirst_eq, hfq]
          · have hme : (s.memberships.filter (fun mb =>
                decide (mb.channel_id = cid ∧
                  mb.user_id = senderId))).isEmpty = true :=
              filter_isEmpty_of_none (fun mb hmb hpmb =>
                hmem ⟨mb, hmb, of_decide_eq_true hpmb⟩)
            have hmT : ∀ mb ∈ s.memberships,
                mb.channel_id = cid → ¬ mb.user_id = senderId :=
              fun mb hmb hc hu => hmem ⟨mb, hmb, hc, hu⟩
            simp [hsne, hs', hsF, hcne, hch', hcF, hme, hmem]
            rw [if_pos hmT]
        · have hce : (s.channels.filter
              (fun cc => decide (cc.id = cid))).isEmpty = true :=
            filter_isEmpty_of_none (fun chn hchn hpchn =>
              hch ⟨chn, hchn, of_decide_eq_true hpchn⟩)
          simp [hsne, hs', hsF, hce, hch]
      | some rid => simp [hsne, hs', hsF]
  · have hse : (s.users.filter
        (fun u => decide (u.id = senderId))).isEmpty = true :=
      filter_isEmpty_of_none (fun u hu hpu =>
        hs ⟨u, hu, of_decide_eq_true hpu⟩)
    simp [hse, hs]

/-- Witness for C4: a member posts to their channel; the handler and the
spec chain agree and the insert carries edited_at = null. -/
theorem createMessage_refines_spec_witness :
    ¬ (some 1 : Option Nat) = some 0 ∧
    createMessage succStore ⟨"hi", .text, some 1, none, none⟩ 10 7 =
      createMessageSpec succStore ⟨"hi", .text, some 1, none, none⟩ 10 7 ∧
    ∃ msg s', createMessage succStore
        ⟨"hi", .text, some 1, none, none⟩ 10 7 = .ok (msg, s') ∧
      msg.edited_at = none :=
  ⟨by decide,
    createMessage_refines_spec succStore ⟨"hi", .text, some 1, none, none⟩
      10 7 (by decide) (by decide) (by decide),
    ⟨_, _, rfl, rfl⟩⟩

/-! ## Claim C9 -/

/-- The handler's channel-visibility filter (membership-channel inArray)
agrees with the spec-worded exists-a-membership filter. -/
theorem search_channel_filter_congr (s : Store) (q : String) (uid : Nat) :
    s.messages.filter (fun m =>
      icontains m.content (jsTrim q) &&
      match m.channel_id with
      | some c => decide (c ∈ (s.memberships.filter (fun mb =>
          decide (mb.user_id = uid))).map (fun mb => mb.channel_id))
      | none => false) =
    s.messages.filter (fun m =>
      icontains m.content (jsTrim q) &&
      decide (∃ mb ∈ s.memberships,
        mb.user_id = uid ∧ some mb.channel_id = m.channel_id)) := by
  apply List.filter_congr
  intro m hm
  by_cases hic : icontains m.content (jsTrim q)
  · rw [hic, Bool.true_and, Bool.true_and]
    cases hmc : m.channel_id with
    | none =>
      simp only [hmc]
      rw [decide_eq_false]
      rintro ⟨mb, hmb, hu, hcontra⟩
      exact Option.noConfusion hcontra
    | some c =>
      simp only [hmc]
      rw [decide_eq_decide]
      simp only [List.mem_map, List.mem_filter, decide_eq_true_eq,
        Option.some.injEq]
      tauto
  · simp [Bool.eq_false_iff.mpr hic]

/-- The handler's DM filter agrees with the spec-worded DM filter. -/
theorem search_dm_filter_congr (s : Store) (q : String) (uid : Nat) :
    s.messages.filter (fun m =>
      decide (icontains m.content (jsTrim q) = true ∧ m.channel_id = none ∧
        (m.sender_id = uid ∨ m.direct_message_recipient_id = some uid))) =
    s.messages.filter (fun m =>
      icontains m.content (jsTrim q) &&
      decide (m.channel_id = none ∧
        (m.sender_id = uid ∨ m.direct_message_recipient_id = some uid))) := by
  apply List.filter_congr
  intro m hm
  by_cases hic : icontains m.content (jsTrim q)
  · rw [hic, Bool.true_and]
    rw [decide_eq_decide]
    constructor
    · rintro ⟨h1, h2⟩
      exact h2
    · intro h2
      exact ⟨rfl, h2⟩
  · rw [Bool.eq_false_iff.mpr hic, Bool.false_and]
    rw [decide_eq_false]
    rintro ⟨h1, h2⟩
    cases h1

/-- The no-channel search handler equals its spec-worded counterpart. -/
theorem searchMessages_spec_eq (s : Store) (q : String) (uid : Nat) :
    searchMessages s q uid none = searchMessagesSpec s q uid := by
  unfold searchMessages searchMessagesSpec
  by_cases hq0 : jsTrim q = ""
  · simp only [if_pos hq0]
  · simp only [if_neg hq0]
    by_cases hch : 0 < ((s.memberships.filter (fun mb =>
        decide (mb.user_id = uid))).map (fun mb => mb.channel_id)).length
    · simp only [if_pos hch, search_channel_filter_congr s q uid,
        search_dm_filter_congr s q uid]
    · have hnone : ∀ mb ∈ s.memberships, ¬ mb.user_id = uid := by
        intro mb hmb hu
        apply hch
        apply List.length_pos_of_mem
        exact List.mem_map_of_mem _ (List.mem_filter.mpr ⟨hmb, by simp [hu]⟩)
      have hempty : s.messages.filter (fun m =>
          icontains m.content (jsTrim q) &&
          decide (∃ mb ∈ s.memberships,
            mb.user_id = uid ∧ some mb.channel_id = m.channel_id)) = [] := by
        rw [List.filter_eq_nil_iff]
        intro m hm
        intro hcontra
        have h2 := (Bool.and_eq_true _ _).mp hcontra |>.2
        obtain ⟨mb, hmb, hu, hcid⟩ := of_decide_eq_true h2
        exact hnone mb hmb hu
      simp only [if_neg hch, search_dm_filter_congr s q uid, hempty]
      rfl

/-- C9 (amended): for the no-channel search, the result is the oldest at
most 25 channel matches (channels where the caller holds a membership)
together with the oldest at most 25 DM matches the caller sent or received
— a match meaning the content contains the trimmed query case-insensitively
— combined, ordered by creation time ascending, capped at 50 total; and
whenever at most 25 matches exist in each category and the query is not
blank, every match is in the result. -/
theorem searchMessages_capped_spec (s : Store) (q : String) (uid : Nat) :
    searchMessages s q uid none = searchMessagesSpec s q uid ∧
    (∀ m ∈ s.messages, ¬ jsTrim q = "" →
      (s.messages.filter (fun x =>
        icontains x.content (jsTrim q) &&
        decide (∃ mb ∈ s.memberships,
          mb.user_id = uid ∧ some mb.channel_id = x.channel_id))).length ≤ 25 →
      (s.messages.filter (fun x =>
        icontains x.content (jsTrim q) &&
        decide (x.channel_id = none ∧
          (x.sender_id = uid ∨
            x.direct_message_recipient_id = some uid)))).length ≤ 25 →
      (icontains m.content (jsTrim q) &&
        (decide (∃ mb ∈ s.memberships,
          mb.user_id = uid ∧ some mb.channel_id = m.channel_id) ||
         decide (m.channel_id = none ∧
          (m.sender_id = uid ∨
            m.direct_message_recipient_id = some uid)))) = true →
      m ∈ searchMessages s q uid none) := by
  refine ⟨searchMessages_spec_eq s q uid, ?_⟩
  intro m hm hq0 hc25 hd25 hmatch
  rw [searchMessages_spec_eq s q uid]
  unfold searchMessagesSpec
  rw [if_neg hq0]
  have hic := (Bool.and_eq_true _ _).mp hmatch |>.1
  have hor := (Bool.and_eq_true _ _).mp hmatch |>.2
  set chl := s.messages.filter (fun x =>
    icontains x.content (jsTrim q) &&
    decide (∃ mb ∈ s.memberships,
      mb.user_id = uid ∧ some mb.channel_id = x.channel_id)) with hchl
  set dml := s.messages.filter (fun x =>
    icontains x.content (jsTrim q) &&
    decide (x.channel_id = none ∧
      (x.sender_id = uid ∨ x.direct_message_recipient_id = some uid))) with hdml
  have htake1 : (sortAsc chl).take 25 = sortAsc chl :=
    List.take_of_length_le (by rw [sortAsc_length]; exact hc25)
  have htake2 : (sortAsc dml).take 25 = sortAsc dml :=
    List.take_of_length_le (by rw [sortAsc_length]; exact hd25)
  rw [htake1, htake2]
  have hlen : (sortAsc (sortAsc chl ++ sortAsc dml)).length ≤ 50 := by
    rw [sortAsc_length, List.length_append, sortAsc_length, sortAsc_length]
    omega
  rw [List.take_of_length_le hlen]
  rw [(sortAsc_perm _).mem_iff]
  rcases (Bool.or_eq_true _ _).mp hor with hchm | hdmm
  · apply List.mem_append_left
    rw [(sortAsc_perm _).mem_iff, hchl]
    exact List.mem_filter.mpr ⟨hm, by rw [hic, Bool.true_and]; exact hchm⟩
  · apply List.mem_append_right
    rw [(sortAsc_perm _).mem_iff, hdml]
    exact List.mem_filter.mpr ⟨hm, by rw [hic, Bool.true_and]; exact hdmm⟩

/-- Witness for C9 on a small store: one matching channel message and one
matching received DM; both are returned, oldest first. -/
theorem searchMessages_capped_spec_witness :
    ¬ jsTrim " x " = "" ∧
    ((⟨1, "alpha X beta", .text, 1, some 1, none, none, none, 3, 3⟩ :
      Message) ∈ searchSmallStore.messages) ∧
    (⟨1, "alpha X beta", .text, 1, some 1, none, none, none, 3, 3⟩ :
      Message) ∈ searchMessages searchSmallStore " x " 1 none :=
  ⟨by decide, by decide,
    (searchMessages_capped_spec searchSmallStore " x " 1).2
      ⟨1, "alpha X beta", .text, 1, some 1, none, none, none, 3, 3⟩
      (by decide) (by decide) (by decide) (by decide) (by decide)⟩

/-- C9 counterexample: with 26 matching channel messages (all visible to the
caller and at most 50 in total), the handler returns only 25 — the result is
not the full ordered match list the claim promises. -/
theorem searchMessages_cap_counterexample :
    (searchBigStore.messages.filter (fun m =>
      icontains m.content (jsTrim "x") &&
      (decide (∃ mb ∈ searchBigStore.memberships,
        mb.user_id = 1 ∧ some mb.channel_id = m.channel_id) ||
       decide (m.channel_id = none ∧
        (m.sender_id = 1 ∨
          m.direct_message_recipient_id = some 1))))).length = 26 ∧
    26 ≤ 50 ∧
    (searchMessages searchBigStore "x" 1 none).length = 25 ∧
    ¬ searchMessages searchBigStore "x" 1 none =
      (sortAsc (searchBigStore.messages.filter (fun m =>
        icontains m.content (jsTrim "x") &&
        (decide (∃ mb ∈ searchBigStore.memberships,
          mb.user_id = 1 ∧ some mb.channel_id = m.channel_id) ||
         decide (m.channel_id = none ∧
          (m.sender_id = 1 ∨
            m.direct_message_recipient_id = some 1)))))).take 50 := by
  refine ⟨by decide, by decide, by decide, fun h => ?_⟩
  have hlen := congrArg List.length h
  revert hlen
  decide

/-! ## Claim C2: the one-owner invariant of the membership state machine -/

theorem inv_initStore (users : List User) : StoreInv (initStore users) := by
  refine ⟨?_, ?_, ?_, ?_, ?_, ?_, ?_⟩ <;>
    first
      | exact List.nodup_nil
      | intro x hx <;> cases hx
      | (intro x hx; cases hx)

theorem StoreInv_append_channel_owner {s : Store} (inv : StoreInv s)
    (ch : Channel) (mem : Membership)
    (hchid : ch.id = s.nextChannelId)
    (hmid : mem.id = s.nextMembershipId)
    (hmchan : mem.channel_id = s.nextChannelId)
    (hmrole : mem.role = Role.owner) :
    StoreInv { s with
      channels := s.channels ++ [ch]
      memberships := s.memberships ++ [mem]
      nextChannelId := s.nextChannelId + 1
      nextMembershipId := s.nextMembershipId + 1 } := by
  have hmemchan : ∀ x ∈ s.memberships, x.channel_id < s.nextChannelId := by
    intro x hx
    obtain ⟨cx, hcx, hcxid⟩ := inv.memChan x hx
    rw [← hcxid]
    exact inv.chanIdLt cx hcx
  refine ⟨?_, ?_, ?_, ?_, ?_, ?_, ?_⟩
  · show ((s.memberships ++ [mem]).map Membership.id).Nodup
    rw [List.map_append, List.nodup_append]
    refine ⟨inv.memIdNodup, List.nodup_singleton _, ?_⟩
    intro a ha hb
    simp only [List.map_cons, List.map_nil, List.mem_singleton] at hb
    obtain ⟨x, hx, hxa⟩ := List.mem_map.mp ha
    have hlt := inv.memIdLt x hx
    rw [hxa, hb, hmid] at hlt
    exact absurd hlt (lt_irrefl _)
  · show ((s.memberships ++ [mem]).map
      (fun m => (m.channel_id, m.user_id))).Nodup
    rw [List.map_append, List.nodup_append]
    refine ⟨inv.memPairNodup, List.nodup_singleton _, ?_⟩
    intro a ha hb
    simp only [List.map_cons, List.map_nil, List.mem_singleton] at hb
    obtain ⟨x, hx, hxa⟩ := List.mem_map.mp ha
    have hlt := hmemchan x hx
    rw [hb] at hxa
    have hxc : x.channel_id = s.nextChannelId := by
      have := congrArg Prod.fst hxa
      simpa [hmchan] using this
    rw [hxc] at hlt
    exact absurd hlt (lt_irrefl _)
  · intro x hx
    show x.id < s.nextMembershipId + 1
    rcases List.mem_append.mp hx with hx' | hx'
    · exact Nat.lt_succ_of_lt (inv.memIdLt x hx')
    · rw [List.mem_singleton] at hx'
      rw [hx', hmid]
      exact Nat.lt_succ_self _
  · show ((s.channels ++ [ch]).map Channel.id).Nodup
    rw [List.map_append, List.nodup_append]
    refine ⟨inv.chanIdNodup, List.nodup_singleton _, ?_⟩
    intro a ha hb
    simp only [List.map_cons, List.map_nil, List.mem_singleton] at hb
    obtain ⟨x, hx, hxa⟩ := List.mem_map.mp ha
    have hlt := inv.chanIdLt x hx
    rw [hxa, hb, hchid] at hlt
    exact absurd hlt (lt_irrefl _)
  · intro x hx
    show x.id < s.nextChannelId + 1
    rcases List.mem_append.mp hx with hx' | hx'
    · exact Nat.lt_succ_of_lt (inv.chanIdLt x hx')
    · rw [List.mem_singleton] at hx'
      rw [hx', hchid]
      exact Nat.lt_succ_self _
  · intro x hx
    show ∃ c ∈ s.channels ++ [ch], c.id = x.channel_id
    rcases List.mem_append.mp hx with hx' | hx'
    · obtain ⟨cx, hcx, hcxid⟩ := inv.memChan x hx'
      exact ⟨cx, List.mem_append_left _ hcx, hcxid⟩
    · rw [List.mem_singleton] at hx'
      rw [hx']
      exact ⟨ch, List.mem_append_right _ (List.mem_singleton.mpr rfl),
        by rw [hchid, hmchan]⟩
  · intro c hcmem
    show (s.memberships ++ [mem]).countP
      (fun m => decide (m.channel_id = c.id ∧ m.role = Role.owner)) = 1
    rw [List.countP_append]
    rcases List.mem_append.mp hcmem with hc' | hc'
    · have hnew : List.countP (fun m =>
          decide (m.channel_id = c.id ∧ m.role = Role.owner)) [mem] = 0 := by
        have hne : ¬ mem.channel_id = c.id := by
          rw [hmchan]
          intro h
          have := inv.chanIdLt c hc'
          rw [← h] at this
          exact absurd this (lt_irrefl _)
        simp [hne]
      rw [hnew]
      have := inv.oneOwner c hc'
      unfold ownerCount at this
      rw [this]
    · rw [List.mem_singleton] at hc'
      have hold : s.memberships.countP (fun m =>
          decide (m.channel_id = c.id ∧ m.role = Role.owner)) = 0 := by
        rw [List.countP_eq_zero]
        intro x hx hpx
        have h1 := (of_decide_eq_true hpx).1
        have h2 := hmemchan x hx
        rw [h1, hc', hchid] at h2
        exact absurd h2 (lt_irrefl _)
      rw [hold]
      have hnew : List.countP (fun m =>
          decide (m.channel_id = c.id ∧ m.role = Role.owner)) [mem] = 1 := by
        have : mem.channel_id = c.id := by rw [hmchan, hc', hchid]
        simp [this, hmrole]
      rw [hnew]

theorem inv_createChannel {s : Store} (inv : StoreInv s)
    (input : CreateChannelInput) (creatorId now : Nat) :
    StoreInv (applyOp s (Op.create input creatorId now)) := by
  show StoreInv (match createChannel s input creatorId now with
    | .ok (_, s') => s'
    | .error _ => s)
  unfold createChannel
  by_cases hc : (s.users.filter (fun u =>
      decide (u.id = creatorId))).isEmpty = true
  · rw [if_pos hc]
    exact inv
  · rw [if_neg hc]
    exact StoreInv_append_channel_owner inv _ _ rfl rfl rfl rfl

theorem exists_of_filter_not_isEmpty {α : Type} {p : α → Bool} {l : List α}
    (h : ¬ (l.filter p).isEmpty = true) : ∃ x ∈ l, p x = true := by
  by_contra hno
  push_neg at hno
  exact h (filter_isEmpty_of_none hno)

theorem StoreInv_append_member {s : Store} (inv : StoreInv s)
    (mem : Membership)
    (hmid : mem.id = s.nextMembershipId)
    (hchan : ∃ c ∈ s.channels, c.id = mem.channel_id)
    (hfresh : ∀ x ∈ s.memberships,
      ¬ (x.channel_id = mem.channel_id ∧ x.user_id = mem.user_id))
    (hrole : ¬ mem.role = Role.owner) :
    StoreInv { s with
      memberships := s.memberships ++ [mem]
      nextMembershipId := s.nextMembershipId + 1 } := by
  refine ⟨?_, ?_, ?_, inv.chanIdNodup, inv.chanIdLt, ?_, ?_⟩
  · show ((s.memberships ++ [mem]).map Membership.id).Nodup
    rw [List.map_append, List.nodup_append]
    refine ⟨inv.memIdNodup, List.nodup_singleton _, ?_⟩
    intro a ha hb
    simp only [List.map_cons, List.map_nil, List.mem_singleton] at hb
    obtain ⟨x, hx, hxa⟩ := List.mem_map.mp ha
    have hlt := inv.memIdLt x hx
    rw [hxa, hb, hmid] at hlt
    exact absurd hlt (lt_irrefl _)
  · show ((s.memberships ++ [mem]).map
      (fun m => (m.channel_id, m.user_id))).Nodup
    rw [List.map_append, List.nodup_append]
    refine ⟨inv.memPairNodup, List.nodup_singleton _, ?_⟩
    intro a ha hb
    simp only [List.map_cons, List.map_nil, List.mem_singleton] at hb
    obtain ⟨x, hx, hxa⟩ := List.mem_map.mp ha
    rw [hb] at hxa
    have hx1 : x.channel_id = mem.channel_id := by
      have := congrArg Prod.fst hxa
      simpa using this
    have hx2 : x.user_id = mem.user_id := by
      have := congrArg Prod.snd hxa
      simpa using this
    exact hfresh x hx ⟨hx1, hx2⟩
  · intro x hx
    show x.id < s.nextMembershipId + 1
    rcases List.mem_append.mp hx with hx' | hx'
    · exact Nat.lt_succ_of_lt (inv.memIdLt x hx')
    · rw [List.mem_singleton] at hx'
      rw [hx', hmid]
      exact Nat.lt_succ_self _
  · intro x hx
    show ∃ c ∈ s.channels, c.id = x.channel_id
    rcases List.mem_append.mp hx with hx' | hx'
    · exact inv.memChan x hx'
    · rw [List.mem_singleton] at hx'
      rw [hx']
      exact hchan
  · intro c hcmem
    show (s.memberships ++ [mem]).countP
      (fun m => decide (m.channel_id = c.id ∧ m.role = Role.owner)) = 1
    rw [List.countP_append]
    have hnew : List.countP (fun m =>
        decide (m.channel_id = c.id ∧ m.role = Role.owner)) [mem] = 0 := by
      simp [hrole]
    rw [hnew]
    have := inv.oneOwner c hcmem
    unfold ownerCount at this
    rw [this]

theorem inv_joinChannel {s : Store} (inv : StoreInv s)
    (input : MembershipInput) (now : Nat)
    (hrole : ¬ input.role = some Role.owner) :
    StoreInv (applyOp s (Op.join input now)) := by
  show StoreInv (match joinChannel s input now with
    | .ok (_, s') => s'
    | .error _ => s)
  unfold joinChannel
  by_cases h1 : (s.channels.filter (fun c =>
      decide (c.id = input.channel_id))).isEmpty = true
  · rw [if_pos h1]
    exact inv
  · rw [if_neg h1]
    by_cases h2 : (s.users.filter (fun u =>
        decide (u.id = input.user_id))).isEmpty = true
    · rw [if_pos h2]
      exact inv
    · rw [if_neg h2]
      cases hX : (s.memberships.filter (fun m =>
          decide (m.channel_id = input.channel_id ∧
            m.user_id = input.user_id))).isEmpty with
      | false =>
        rw [if_pos (show (!false) = true from rfl)]
        exact inv
      | true =>
        rw [if_neg (by decide)]
        refine StoreInv_append_member inv _ rfl ?_ ?_ ?_
        · obtain ⟨c, hc, hpc⟩ := exists_of_filter_not_isEmpty h1
          exact ⟨c, hc, of_decide_eq_true hpc⟩
        · intro x hx hpair
          have hempty : s.memberships.filter (fun m =>
              decide (m.channel_id = input.channel_id ∧
                m.user_id = input.user_id)) = [] :=
            List.isEmpty_iff.mp hX
          rw [List.filter_eq_nil_iff] at hempty
          exact hempty x hx (decide_eq_true hpair)
        · show ¬ input.role.getD Role.member = Role.owner
          cases hro : input.role with
          | none => simp
          | some r =>
            simp only [Option.getD]
            intro hcontra
            rw [hro, hcontra] at hrole
            exact hrole rfl

theorem StoreInv_remove_nonowner {s : Store} (inv : StoreInv s)
    {c u : Nat} {m : Membership} (hm : m ∈ s.memberships)
    (hcm : m.channel_id = c) (hum : m.user_id = u)
    (hrole : ¬ m.role = Role.owner) :
    StoreInv (removeMembershipRows s c u) := by
  refine ⟨?_, ?_, ?_, inv.chanIdNodup, inv.chanIdLt, ?_, ?_⟩
  · show ((s.memberships.filter (fun x =>
      decide (¬ (x.channel_id = c ∧ x.user_id = u)))).map Membership.id).Nodup
    exact ((List.filter_sublist _).map _).nodup inv.memIdNodup
  · show ((s.memberships.filter (fun x =>
      decide (¬ (x.channel_id = c ∧ x.user_id = u)))).map
        (fun m => (m.channel_id, m.user_id))).Nodup
    exact ((List.filter_sublist _).map _).nodup inv.memPairNodup
  · intro x hx
    exact inv.memIdLt x ((List.filter_sublist _).mem hx)
  · intro x hx
    exact inv.memChan x ((List.filter_sublist _).mem hx)
  · intro ch hch
    show (s.memberships.filter (fun x =>
      decide (¬ (x.channel_id = c ∧ x.user_id = u)))).countP
        (fun x => decide (x.channel_id = ch.id ∧ x.role = Role.owner)) = 1
    rw [remove_pair_countP inv.memPairNodup hm hcm hum _
      (decide_eq_false (fun hq => hrole hq.2))]
    exact inv.oneOwner ch hch

theorem StoreInv_deleteChannelCascade {s : Store} (inv : StoreInv s)
    (c : Nat) : StoreInv (deleteChannelCascade s c) := by
  refine ⟨?_, ?_, ?_, ?_, ?_, ?_, ?_⟩
  · show ((s.memberships.filter (fun x =>
      decide (¬ x.channel_id = c))).map Membership.id).Nodup
    exact ((List.filter_sublist _).map _).nodup inv.memIdNodup
  · show ((s.memberships.filter (fun x =>
      decide (¬ x.channel_id = c))).map
        (fun m => (m.channel_id, m.user_id))).Nodup
    exact ((List.filter_sublist _).map _).nodup inv.memPairNodup
  · intro x hx
    exact inv.memIdLt x ((List.filter_sublist _).mem hx)
  · show ((s.channels.filter (fun x =>
      decide (¬ x.id = c))).map Channel.id).Nodup
    exact ((List.filter_sublist _).map _).nodup inv.chanIdNodup
  · intro x hx
    exact inv.chanIdLt x ((List.filter_sublist _).mem hx)
  · intro x hx
    have h1 := List.mem_filter.mp hx
    have h2 : ¬ x.channel_id = c := of_decide_eq_true h1.2
    obtain ⟨cx, hcx, hcxid⟩ := inv.memChan x h1.1
    refine ⟨cx, List.mem_filter.mpr ⟨hcx, ?_⟩, hcxid⟩
    rw [decide_eq_true_eq]
    intro hcontra
    rw [← hcxid] at h2
    exact h2 hcontra
  · intro ch hch
    have h1 := List.mem_filter.mp hch
    have h2 : ¬ ch.id = c := of_decide_eq_true h1.2
    show (s.memberships.filter (fun x => decide (¬ x.channel_id = c))).countP
      (fun x => decide (x.channel_id = ch.id ∧ x.role = Role.owner)) = 1
    rw [List.countP_filter]
    have hcg : s.memberships.countP (fun x =>
        decide (x.channel_id = ch.id ∧ x.role = Role.owner) &&
          decide (¬ x.channel_id = c)) =
        s.memberships.countP (fun x =>
          decide (x.channel_id = ch.id ∧ x.role = Role.owner)) := by
      apply List.countP_congr
      intro x hx
      simp only [Bool.and_eq_true, decide_eq_true_eq]
      constructor
      · rintro ⟨ha, hb⟩
        exact ha
      · rintro ⟨ha, hb⟩
        refine ⟨⟨ha, hb⟩, ?_⟩
        intro hcontra
        rw [ha] at hcontra
        exact h2 hcontra
    rw [hcg]
    exact inv.oneOwner ch h1.1

theorem StoreInv_promote_remove {s : Store} (inv : StoreInv s)
    {c u : Nat} {m w : Membership}
    (hm : m ∈ s.memberships) (hcm : m.channel_id = c) (hum : m.user_id = u)
    (hmrole : m.role = Role.owner)
    (hw : w ∈ s.memberships) (hwc : w.channel_id = c)
    (hwu : ¬ w.user_id = u) :
    StoreInv (removeMembershipRows
      { s with memberships := s.memberships.map (fun x =>
          if x.id = w.id then { x with role := Role.owner } else x) }
      c u) := by
  have hone : ∀ x ∈ s.memberships, x.channel_id = c → ¬ x.user_id = u →
      ¬ x.role = Role.owner := by
    obtain ⟨cm, hcmem, hcmid⟩ := inv.memChan m hm
    have hcnt := inv.oneOwner cm hcmem
    unfold ownerCount at hcnt
    intro x hx hxc hxu hxrole
    have hpx : decide (x.channel_id = cm.id ∧ x.role = Role.owner) = true := by
      rw [decide_eq_true_eq]
      exact ⟨by rw [hxc, ← hcm, hcmid], hxrole⟩
    have hpm : decide (m.channel_id = cm.id ∧ m.role = Role.owner) = true := by
      rw [decide_eq_true_eq]
      exact ⟨hcmid.symm, hmrole⟩
    have hxm := countP_one_all_eq hcnt hm hpm x hx hpx
    rw [hxm] at hxu
    exact hxu hum
  have hidcomp : (Membership.id ∘ (fun x =>
      if x.id = w.id then { x with role := Role.owner } else x)) =
      Membership.id := by
    funext x
    by_cases h : x.id = w.id <;> simp [h]
  have hpaircomp : ((fun m => (m.channel_id, m.user_id)) ∘ (fun x =>
      if x.id = w.id then { x with role := Role.owner } else x)) =
      (fun m : Membership => (m.channel_id, m.user_id)) := by
    funext x
    by_cases h : x.id = w.id <;> simp [h]
  refine ⟨?_, ?_, ?_, inv.chanIdNodup, inv.chanIdLt, ?_, ?_⟩
  · show (((s.memberships.map (fun x =>
      if x.id = w.id then { x with role := Role.owner } else x)).filter
        (fun x => decide (¬ (x.channel_id = c ∧ x.user_id = u)))).map
          Membership.id).Nodup
    refine ((List.filter_sublist _).map _).nodup ?_
    rw [List.map_map, hidcomp]
    exact inv.memIdNodup
  · show (((s.memberships.map (fun x =>
      if x.id = w.id then { x with role := Role.owner } else x)).filter
        (fun x => decide (¬ (x.channel_id = c ∧ x.user_id = u)))).map
          (fun m => (m.channel_id, m.user_id))).Nodup
    refine ((List.filter_sublist _).map _).nodup ?_
    rw [List.map_map, hpaircomp]
    exact inv.memPairNodup
  · intro x hx
    have hx1 := (List.filter_sublist _).mem hx
    obtain ⟨y, hy, hyx⟩ := List.mem_map.mp hx1
    show x.id < s.nextMembershipId
    rw [← hyx]
    have : (if y.id = w.id then { y with role := Role.owner } else y).id =
        y.id := by
      by_cases h : y.id = w.id <;> simp [h]
    rw [this]
    exact inv.memIdLt y hy
  · intro x hx
    have hx1 := (List.filter_sublist _).mem hx
    obtain ⟨y, hy, hyx⟩ := List.mem_map.mp hx1
    show ∃ cch ∈ s.channels, cch.id = x.channel_id
    rw [← hyx]
    have : (if y.id = w.id then { y with role := Role.owner } else y).channel_id
        = y.channel_id := by
      by_cases h : y.id = w.id <;> simp [h]
    rw [this]
    exact inv.memChan y hy
  · intro ch hch
    show ((s.memberships.map (fun x =>
      if x.id = w.id then { x with role := Role.owner } else x)).filter
        (fun x => decide (¬ (x.channel_id = c ∧ x.user_id = u)))).countP
          (fun x => decide (x.channel_id = ch.id ∧ x.role = Role.owner)) = 1
    by_cases hchc : ch.id = c
    · rw [hchc]
      exact promote_remove_ownerCount inv.memIdNodup inv.memPairNodup
        hm hcm hum hw hwc hwu hone
    · rw [promote_remove_countP_other inv.memIdNodup hw hwc hchc]
      exact inv.oneOwner ch hch

theorem inv_leaveChannel {s : Store} (inv : StoreInv s)
    (input : MembershipInput) : StoreInv (applyOp s (Op.leave input)) := by
  show StoreInv (match leaveChannel s input with
    | .ok (_, s') => s'
    | .error _ => s)
  cases hf : s.memberships.filter (fun x =>
      decide (x.channel_id = input.channel_id ∧
        x.user_id = input.user_id)) with
  | nil =>
    rw [leaveChannel_eval_notmember s input hf]
    exact inv
  | cons hd tl =>
    have hhd : hd ∈ s.memberships ∧ hd.channel_id = input.channel_id ∧
        hd.user_id = input.user_id := by
      have h1 : hd ∈ s.memberships.filter (fun x =>
          decide (x.channel_id = input.channel_id ∧
            x.user_id = input.user_id)) := by
        rw [hf]
        exact List.mem_cons_self hd tl
      have h2 := List.mem_filter.mp h1
      have h3 := of_decide_eq_true h2.2
      exact ⟨h2.1, h3.1, h3.2⟩
    by_cases hrole : hd.role = Role.owner
    · cases hrem : (s.memberships.filter (fun x =>
          decide (x.channel_id = input.channel_id))).filter
            (fun x => decide (¬ x.user_id = input.user_id)) with
      | nil =>
        rw [leaveChannel_eval_delete s input hd tl hf hrole hrem]
        exact StoreInv_deleteChannelCascade inv _
      | cons r rl =>
        rw [leaveChannel_eval_promote s input hd tl r rl hf hrole hrem]
        have hremfacts : ∀ y ∈ r :: rl, y ∈ s.memberships ∧
            y.channel_id = input.channel_id ∧
            ¬ y.user_id = input.user_id := by
          intro y hy
          rw [← hrem] at hy
          have h1 := List.mem_filter.mp hy
          have h2 := List.mem_filter.mp h1.1
          exact ⟨h2.1, of_decide_eq_true h2.2, of_decide_eq_true h1.2⟩
        have hwin : ((r :: rl).filter (fun y =>
            decide (y.role = Role.admin))).headD r ∈ r :: rl := by
          cases hadm : (r :: rl).filter (fun y =>
              decide (y.role = Role.admin)) with
          | nil => exact List.mem_cons_self r rl
          | cons a al =>
            have ha : a ∈ (r :: rl).filter (fun y =>
                decide (y.role = Role.admin)) := by
              rw [hadm]
              exact List.mem_cons_self a al
            exact (List.mem_filter.mp ha).1
        obtain ⟨hwmem, hwc, hwu⟩ := hremfacts _ hwin
        exact StoreInv_promote_remove inv hhd.1 hhd.2.1 hhd.2.2 hrole
          hwmem hwc hwu
    · rw [leaveChannel_eval_nonowner s input hd tl hf hrole]
      exact StoreInv_remove_nonowner inv hhd.1 hhd.2.1 hhd.2.2 hrole

theorem reach_inv {s : Store}
    (h : Reach (fun op => ¬ joinsAsOwner op) s) : StoreInv s := by
  induction h with
  | init users => exact inv_initStore users
  | step op hr hallow ih =>
    cases op with
    | create input creatorId now =>
      exact inv_createChannel ih input creatorId now
    | join input now => exact inv_joinChannel ih input now hallow
    | leave input => exact inv_leaveChannel ih input

/-- C2 (corrected): in every store reachable from an initial store by
createChannel, joinChannel and leaveChannel operations in which no join
ever requests the owner role, every existing channel has exactly one
membership row with role owner. The restriction is necessary: joinChannel
honours a requested role verbatim, so a join with role owner creates a
second owner (see the counterexample). -/
theorem one_owner_invariant {s : Store}
    (h : Reach (fun op => ¬ joinsAsOwner op) s) :
    ∀ c ∈ s.channels, ownerCount s c.id = 1 :=
  (reach_inv h).oneOwner

/-- Witness for C2: after user 1 creates a channel and user 2 joins with
no requested role, the one channel has exactly one owner row. -/
theorem one_owner_invariant_witness :
    memberJoinStore.channels.all
      (fun c => decide (ownerCount memberJoinStore c.id = 1)) = true := by
  have hreach : Reach (fun op => ¬ joinsAsOwner op) memberJoinStore :=
    Reach.step (Op.join ⟨1, 2, none⟩ 1)
      (Reach.step (Op.create ⟨"general", none, false⟩ 1 0)
        (Reach.init [mkUser 1, mkUser 2]) (fun hx => hx))
      (fun hx => Option.noConfusion hx)
  have h := one_owner_invariant hreach
  exact List.all_eq_true.mpr (fun c hc => decide_eq_true (h c hc))

/-- Counterexample to C2 as stated: with joins allowed to request any
role, the store in which user 2 joins user 1's channel with role owner is
reachable, and its channel has two owner rows. -/
theorem one_owner_invariant_counterexample :
    Reach (fun _ => True) twoOwnerStore ∧
      ∃ c ∈ twoOwnerStore.channels,
        ¬ ownerCount twoOwnerStore c.id = 1 := by
  constructor
  · exact Reach.step (Op.join ⟨1, 2, some Role.owner⟩ 1)
      (Reach.step (Op.create ⟨"general", none, false⟩ 1 0)
        (Reach.init [mkUser 1, mkUser 2]) trivial) trivial
  · decide

end TeamChat
